import Mathlib

/-!
Shallow embedding of the signup / waitlist core of the mysewa backend.

The database is modelled as a list of signup rows (the `userEventSignup`
table in table order, so Prisma `findFirst` is `List.find?` and
`findMany` with `orderBy: signupDate asc` is an insertion sort of the
filtered rows).  Each HTTP-route transaction body becomes a pure
function from the pre-state to `Except Err` of the post-state; an
`error` result means the transaction rolled back and nothing was
committed.  Timestamps are integers (milliseconds).
-/

namespace MySewa

inductive Role
  | STUDENT
  | PARENT
  | ADMIN
deriving DecidableEq, Repr

inductive SignupStatus
  | CONFIRMED
  | WAITLIST
  | WAITLIST_PENDING
  | CANCELLED
deriving DecidableEq, Repr

inductive InstanceStatus
  | ACTIVE
  | COMPLETED
  | CANCELLED
deriving DecidableEq, Repr

inductive EventStatus
  | DRAFT
  | PUBLISHED
  | SCHEDULED
  | ARCHIVED
deriving DecidableEq, Repr

/-- One row of the `userEventSignup` table.  The signer's role is
denormalized into the row (the source reads it through the `user`
relation). -/
structure Signup where
  id : Nat
  userId : Nat
  instanceId : Nat
  role : Role
  status : SignupStatus
  signupDate : Int
  waitlistNotifiedAt : Option Int := none
  cancelledAt : Option Int := none
deriving DecidableEq, Repr

/-- One row of the `eventInstance` table (the fields the core reads). -/
structure EventInstance where
  id : Nat
  studentCapacity : Nat
  parentCapacity : Nat
  enabled : Bool
  waitlistEnabled : Bool
  status : InstanceStatus
  startDate : Option Int := none
  cancelledAt : Option Int := none
  cancelledBy : Option Nat := none
deriving DecidableEq, Repr

structure Event where
  id : Nat
  status : EventStatus
deriving DecidableEq, Repr

structure UserCtx where
  id : Nat
  role : Role
deriving DecidableEq, Repr

inductive Err
  | EventNotFound
  | InstanceNotFound
  | EventNotAvailable
  | SessionNotOpen
  | SessionCancelled
  | AlreadySignedUp
  | FullWaitlistDisabled
  | SignupNotFound
  | NoPendingSpot
  | OfferExpired
  | SessionNowFull
  | CapacityTooLow
  | CannotDisableWaitlist
deriving DecidableEq, Repr

inductive NotifKind
  | OfferExpired
  | SpotAvailable
  | SessionCancelled
  | SessionCompleted
  | Removed
  | Declined
deriving DecidableEq, Repr

structure Notif where
  userId : Nat
  sessionId : Nat
  kind : NotifKind
deriving DecidableEq, Repr

/-- `instance.studentCapacity` or `instance.parentCapacity` selected by
the signer's role; the source uses the ternary
`role === 'STUDENT' ? studentCapacity : parentCapacity`. -/
def roleCapacity (inst : EventInstance) (r : Role) : Nat :=
  match r with
  | .STUDENT => inst.studentCapacity
  | _ => inst.parentCapacity

def idsOf (db : List Signup) : List Nat := db.map Signup.id

/-- `update({ where: { id }, data })`: replace the row with primary key `i`. -/
def updateById (db : List Signup) (i : Nat) (new : Signup) : List Signup :=
  db.map fun s => if s.id = i then new else s

/-- `count({ where: { instanceId, status: CONFIRMED, user: { role } } })`. -/
def confirmedCount (db : List Signup) (instId : Nat) (r : Role) : Nat :=
  db.countP fun s => decide (s.instanceId = instId ∧ s.role = r ∧ s.status = .CONFIRMED)

/-- Length of `findMany({ where: { instanceId, status in [CONFIRMED, WAITLIST_PENDING], user: { role } } })`. -/
def reservedCount (db : List Signup) (instId : Nat) (r : Role) : Nat :=
  db.countP fun s =>
    decide (s.instanceId = instId ∧ s.role = r ∧
      (s.status = .CONFIRMED ∨ s.status = .WAITLIST_PENDING))

/-- The WAITLIST rows of one role pool:
`where: { instanceId, status: WAITLIST, user: { role } }`. -/
def waitlistFor (db : List Signup) (instId : Nat) (r : Role) : List Signup :=
  db.filter fun s => decide (s.instanceId = instId ∧ s.status = .WAITLIST ∧ s.role = r)

/-- Insertion step for the `orderBy: { signupDate: asc }` model. -/
def insertByDate (s : Signup) : List Signup → List Signup
  | [] => [s]
  | t :: ts => if s.signupDate ≤ t.signupDate then s :: t :: ts else t :: insertByDate s ts

/-- `orderBy: { signupDate: asc }` as an insertion sort. -/
def sortByDate : List Signup → List Signup
  | [] => []
  | s :: ss => insertByDate s (sortByDate ss)

/-! ## Waitlist promoter (`promoteWaitlistedUsers` helper) -/

/-- `promoteWaitlistedUsers(tx, instanceId, role, slotsAvailable)`:
fetch the WAITLIST rows of the role pool ordered by ascending
`signupDate`, take `slotsAvailable`, set each to WAITLIST_PENDING with
`waitlistNotifiedAt = now`, create a spot-available notification per
promoted user, and return the promoted rows.  Returns
(new table, promoted rows, notifications). -/
def promoteWaitlistedUsers (db : List Signup) (instId : Nat) (r : Role) (slots : Nat)
    (now : Int) : List Signup × List Signup × List Notif :=
  let selected := (sortByDate (waitlistFor db instId r)).take slots
  let selIds := selected.map Signup.id
  let db' := db.map fun s =>
    if selIds.contains s.id then { s with status := .WAITLIST_PENDING, waitlistNotifiedAt := some now }
    else s
  (db', selected, selected.map fun s => ⟨s.userId, instId, .SpotAvailable⟩)

/-- `findFirst({ where: { instanceId, status: WAITLIST, user: { role } }, orderBy: { signupDate: asc } })`
followed by the promote-one update, as shared by the decline route and
the expiry sweeper.  Returns (new table, promoted row if any, notifications). -/
def cascadePromote (instId : Nat) (r : Role) (now : Int) (db : List Signup) :
    List Signup × Option Signup × List Notif :=
  match (sortByDate (waitlistFor db instId r)).head? with
  | none => (db, none, [])
  | some nxt =>
    (updateById db nxt.id { nxt with status := .WAITLIST_PENDING, waitlistNotifiedAt := some now },
     some nxt, [⟨nxt.userId, instId, .SpotAvailable⟩])

/-! ## Signup creation (`router.post('/')` transaction body) -/

/-- The fresh row inserted by `tx.userEventSignup.create` (Prisma
defaults: `signupDate = now()`, no notification or cancellation time). -/
def newSignup (newId uid instId : Nat) (r : Role) (st : SignupStatus) (now : Int) : Signup :=
  { id := newId, userId := uid, instanceId := instId, role := r, status := st,
    signupDate := now, waitlistNotifiedAt := none, cancelledAt := none }

/-- The row written by the create-or-revive step: a revived CANCELLED
row is updated with `data: { status }` only. -/
def insertedRow (u : UserCtx) (inst : EventInstance) (revive : Option Signup)
    (newId : Nat) (now : Int) (st : SignupStatus) : Signup :=
  match revive with
  | some ex => { ex with status := st }
  | none => newSignup newId u.id inst.id u.role st now

/-- The table after the create-or-revive step. -/
def insertedDb (db : List Signup) (revive : Option Signup) (row : Signup) : List Signup :=
  match revive with
  | some ex => updateById db ex.id row
  | none => db ++ [row]

/-- The post-insert double check of the create route: if the signup was
inserted CONFIRMED, re-count CONFIRMED rows of the role pool; on
overflow demote it to WAITLIST when the waitlist is enabled, otherwise
delete it and abort with the full/waitlist-disabled conflict. -/
def backstopPhase (inst : EventInstance) (r : Role) (row : Signup) (st : SignupStatus)
    (db2 : List Signup) : Except Err (List Signup × Signup × SignupStatus) :=
  if st = .CONFIRMED then
    if confirmedCount db2 inst.id r > roleCapacity inst r then
      if inst.waitlistEnabled then
        .ok (updateById db2 row.id { row with status := .WAITLIST },
             { row with status := .WAITLIST }, .WAITLIST)
      else .error .FullWaitlistDisabled
    else .ok (db2, row, st)
  else .ok (db2, row, st)

/-- Capacity decision plus insert plus backstop.  `race` holds rows
committed by concurrent writers between this transaction's initial
reserved-count read and its post-insert re-count (empty under serial
execution). -/
def createSignupCore (inst : EventInstance) (u : UserCtx) (revive : Option Signup)
    (newId : Nat) (now : Int) (race db : List Signup) :
    Except Err (List Signup × Signup × SignupStatus) :=
  let cap := roleCapacity inst u.role
  let st : SignupStatus := if reservedCount db inst.id u.role ≥ cap then .WAITLIST else .CONFIRMED
  if st = .WAITLIST ∧ inst.waitlistEnabled = false then .error .FullWaitlistDisabled
  else
    let row := insertedRow u inst revive newId now st
    backstopPhase inst u.role row st (insertedDb db revive row ++ race)

/-- The guard used by the create route to find any existing signup of
this user on this instance. -/
def sameUserInstance (uid instId : Nat) (s : Signup) : Bool :=
  decide (s.userId = uid ∧ s.instanceId = instId)

/-- The whole `prisma.$transaction` body of the create-signup route. -/
def createSignupTx (ev? : Option Event) (inst? : Option EventInstance) (u : UserCtx)
    (newId : Nat) (now : Int) (race db : List Signup) :
    Except Err (List Signup × Signup × SignupStatus) :=
  match ev?, inst? with
  | none, _ => .error .EventNotFound
  | some _, none => .error .InstanceNotFound
  | some ev, some inst =>
    if ev.status ≠ .PUBLISHED ∧ u.role ≠ .ADMIN then .error .EventNotAvailable
    else if inst.enabled = false then .error .SessionNotOpen
    else if inst.status = .CANCELLED then .error .SessionCancelled
    else
      match db.find? (sameUserInstance u.id inst.id) with
      | some ex =>
        if ex.status ≠ .CANCELLED then .error .AlreadySignedUp
        else createSignupCore inst u (some ex) newId now race db
      | none => createSignupCore inst u none newId now race db

/-- The table visible after the transaction: its result on success, the
rolled-back state otherwise. -/
def commitDb (fallback : List Signup) :
    Except Err (List Signup × Signup × SignupStatus) → List Signup
  | .ok (db, _, _) => db
  | .error _ => fallback

/-! ## Accept / decline a waitlist offer -/

def twelveHoursMs : Int := 12 * 60 * 60 * 1000

/-- The `findFirst` filter shared by the accept and decline routes. -/
def isPendingFor (uid instId : Nat) (s : Signup) : Bool :=
  decide (s.userId = uid ∧ s.instanceId = instId ∧ s.status = .WAITLIST_PENDING)

/-- The accepted row: CONFIRMED, notification timestamp cleared,
`signupDate` reset to the acceptance time. -/
def acceptedRow (p : Signup) (now : Int) : Signup :=
  { p with status := .CONFIRMED, waitlistNotifiedAt := none, signupDate := now }

/-- `router.post('/accept-waitlist/:instanceId')` transaction body. -/
def acceptWaitlistTx (inst : EventInstance) (uid : Nat) (now : Int) (db : List Signup) :
    Except Err (List Signup × Signup) :=
  match db.find? (isPendingFor uid inst.id) with
  | none => .error .NoPendingSpot
  | some pending =>
    let expired : Bool :=
      match pending.waitlistNotifiedAt with
      | some t => decide (t < now - twelveHoursMs)
      | none => false
    if expired then .error .OfferExpired
    else if confirmedCount db inst.id pending.role ≥ roleCapacity inst pending.role then
      .error .SessionNowFull
    else
      .ok (updateById db pending.id (acceptedRow pending now), acceptedRow pending now)

/-- `router.post('/decline-waitlist/:instanceId')` transaction body:
delete the pending row, then promote the next WAITLIST row of the same
role pool (if any). -/
def declineWaitlistTx (instId uid : Nat) (now : Int) (db : List Signup) :
    Except Err (List Signup × Option Signup × List Notif) :=
  match db.find? (isPendingFor uid instId) with
  | none => .error .NoPendingSpot
  | some pending =>
    let db1 := db.filter fun s => decide (s.id ≠ pending.id)
    let c := cascadePromote instId pending.role now db1
    .ok (c.1, c.2.1, ⟨uid, instId, .Declined⟩ :: c.2.2)

/-! ## Offer expiry sweeper (`EventScheduler.processWaitlistTimeouts`) -/

/-- `where: { status: WAITLIST_PENDING, waitlistNotifiedAt: { not: null, lte: twelveHoursAgo } }`. -/
def isTimedOut (now : Int) (s : Signup) : Bool :=
  decide (s.status = SignupStatus.WAITLIST_PENDING) &&
    match s.waitlistNotifiedAt with
    | some t => decide (t ≤ now - twelveHoursMs)
    | none => false

def findTimedOut (now : Int) (db : List Signup) : List Signup :=
  db.filter (isTimedOut now)

/-- One timed-out row's transaction: delete it, notify the user of the
expiry, promote the next WAITLIST row of the same role pool. -/
def processTimeout (now : Int) (row : Signup) (db : List Signup) :
    List Signup × List Notif :=
  let db1 := db.filter fun s => decide (s.id ≠ row.id)
  let c := cascadePromote row.instanceId row.role now db1
  (c.1, ⟨row.userId, row.instanceId, .OfferExpired⟩ :: c.2.2)

/-- The sweeper's per-row loop.  `fails i = true` models the `i`-th
row's transaction throwing: the whole loop sits in one try/catch, so a
throw ends the tick with the rows processed so far committed. -/
def sweepGo (now : Int) (fails : Nat → Bool) (rows : List Signup) (i : Nat)
    (db : List Signup) (ns : List Notif) : List Signup × List Notif :=
  match rows with
  | [] => (db, ns)
  | r :: rs =>
    if fails i then (db, ns)
    else
      let p := processTimeout now r db
      sweepGo now fails rs (i + 1) p.1 (ns ++ p.2)

/-- `EventScheduler.processWaitlistTimeouts`: collect the timed-out
WAITLIST_PENDING rows once, then run the per-row transactions in order. -/
def processWaitlistTimeouts (now : Int) (fails : Nat → Bool) (db : List Signup) :
    List Signup × List Notif :=
  sweepGo now fails (findTimedOut now db) 0 db []

/-! ## Instance lifecycle -/

/-- `startDate: { not: null, lte: now }`. -/
def startDatePassed (now : Int) (i : EventInstance) : Bool :=
  match i.startDate with
  | some d => decide (d ≤ now)
  | none => false

/-- `EventScheduler.processSessionDisabling`: every enabled ACTIVE
instance whose `startDate` has passed is disabled and marked COMPLETED.
The signup table is not touched. -/
def processSessionDisabling (now : Int) (insts : List EventInstance) (db : List Signup) :
    List EventInstance × List Signup :=
  (insts.map fun i =>
    if i.enabled = true ∧ i.status = .ACTIVE ∧ startDatePassed now i = true then
      { i with enabled := false, status := .COMPLETED }
    else i,
   db)

/-- `router.patch('/instances/:instanceId/status')` transaction body:
set the status (recording cancellation details when cancelling); when
cancelling or completing, demote every WAITLIST_PENDING signup of the
instance back to WAITLIST with the notification timestamp cleared, and
notify the CONFIRMED signups other than the acting admin. -/
def updateSessionStatus (inst : EventInstance) (newStatus : InstanceStatus) (now : Int)
    (actorId : Nat) (db : List Signup) : EventInstance × List Signup × List Notif :=
  let inst' : EventInstance :=
    if newStatus = .CANCELLED then
      { inst with status := newStatus, cancelledAt := some now, cancelledBy := some actorId }
    else { inst with status := newStatus }
  if newStatus = .CANCELLED ∨ newStatus = .COMPLETED then
    let db' := db.map fun s =>
      if s.instanceId = inst.id ∧ s.status = .WAITLIST_PENDING then
        { s with status := .WAITLIST, waitlistNotifiedAt := none }
      else s
    let ns := (db.filter fun s =>
        decide (s.instanceId = inst.id ∧ s.status = .CONFIRMED ∧ s.userId ≠ actorId)).map
      fun s => Notif.mk s.userId inst.id
        (if newStatus = .CANCELLED then .SessionCancelled else .SessionCompleted)
    (inst', db', ns)
  else (inst', db, [])

/-! ## Cancel / delete a signup (`router.put('/:id')`, `router.delete('/:id')`) -/

/-- `router.put('/:id')` restricted to a status-update request.  The
row is updated (with `cancelledAt` stamped when cancelling), and when
the REQUESTED status is CANCELLED the route promotes one slot of the
cancelled user's role pool — without checking the signup's previous
status. -/
def updateSignupStatus (sid : Nat) (newStatus : SignupStatus) (now : Int)
    (db : List Signup) : Except Err (List Signup × List Signup) :=
  match db.find? (fun s => decide (s.id = sid)) with
  | none => .error .SignupNotFound
  | some ex =>
    let upd : Signup :=
      if newStatus = .CANCELLED then { ex with status := newStatus, cancelledAt := some now }
      else { ex with status := newStatus }
    let db1 := updateById db sid upd
    if newStatus = .CANCELLED then
      let p := promoteWaitlistedUsers db1 ex.instanceId ex.role 1 now
      .ok (p.1, p.2.1)
    else .ok (db1, [])

/-- `router.delete('/:id')` transaction body: hard-delete the row and
promote one slot only when the deleted signup was CONFIRMED. -/
def deleteSignupRoute (sid : Nat) (now : Int) (db : List Signup) :
    Except Err (List Signup × List Signup) :=
  match db.find? (fun s => decide (s.id = sid)) with
  | none => .error .SignupNotFound
  | some ex =>
    let db1 := db.filter fun s => decide (s.id ≠ sid)
    if ex.status = .CONFIRMED then
      let p := promoteWaitlistedUsers db1 ex.instanceId ex.role 1 now
      .ok (p.1, p.2.1)
    else .ok (db1, [])

/-! ## Instance update (`router.put('/instances/:instanceId')`) -/

/-- A validated instance-update request body (the fields the capacity
logic reads; Joi allows capacities down to 0). -/
structure InstanceUpdateReq where
  studentCapacity : Option Nat := none
  parentCapacity : Option Nat := none
  enabled : Option Bool := none
  waitlistEnabled : Option Bool := none
deriving DecidableEq, Repr

/-- JS truthiness of `value.xCapacity`: present and non-zero. -/
def optTruthyNat : Option Nat → Bool
  | some n => decide (n ≠ 0)
  | none => false

def waitlistOrPendingCount (db : List Signup) (instId : Nat) : Nat :=
  db.countP fun s =>
    decide (s.instanceId = instId ∧ (s.status = .WAITLIST ∨ s.status = .WAITLIST_PENDING))

def applyInstanceReq (inst : EventInstance) (req : InstanceUpdateReq) : EventInstance :=
  { inst with
    studentCapacity := req.studentCapacity.getD inst.studentCapacity,
    parentCapacity := req.parentCapacity.getD inst.parentCapacity,
    enabled := req.enabled.getD inst.enabled,
    waitlistEnabled := req.waitlistEnabled.getD inst.waitlistEnabled }

/-- The instance-update route: capacity-reduction guards (skipped when
the requested value is falsy, i.e. absent or 0), waitlist-disable
guard, then the update with capacity-increase promotions and the
close-session demotion of WAITLIST_PENDING rows. -/
def updateEventInstance (inst : EventInstance) (req : InstanceUpdateReq) (now : Int)
    (db : List Signup) : Except Err (EventInstance × List Signup) :=
  if optTruthyNat req.studentCapacity = true ∧ req.studentCapacity.getD 0 < inst.studentCapacity ∧
      req.studentCapacity.getD 0 < reservedCount db inst.id .STUDENT then
    .error .CapacityTooLow
  else if optTruthyNat req.parentCapacity = true ∧ req.parentCapacity.getD 0 < inst.parentCapacity ∧
      req.parentCapacity.getD 0 < reservedCount db inst.id .PARENT then
    .error .CapacityTooLow
  else if req.waitlistEnabled = some false ∧ 0 < waitlistOrPendingCount db inst.id then
    .error .CannotDisableWaitlist
  else
    let inst' := applyInstanceReq inst req
    let dbA :=
      if optTruthyNat req.studentCapacity = true ∧
          inst.studentCapacity < req.studentCapacity.getD 0 then
        (promoteWaitlistedUsers db inst.id .STUDENT
          (req.studentCapacity.getD 0 - inst.studentCapacity) now).1
      else db
    let dbB :=
      if optTruthyNat req.parentCapacity = true ∧
          inst.parentCapacity < req.parentCapacity.getD 0 then
        (promoteWaitlistedUsers dbA inst.id .PARENT
          (req.parentCapacity.getD 0 - inst.parentCapacity) now).1
      else dbA
    let dbC :=
      if req.enabled = some false ∧ inst.enabled = true then
        dbB.map fun s =>
          if s.instanceId = inst.id ∧ s.status = .WAITLIST_PENDING then
            { s with status := .WAITLIST, waitlistNotifiedAt := none }
          else s
      else dbB
    .ok (inst', dbC)

/-! # Infrastructure lemmas -/

lemma insertByDate_perm (s : Signup) (l : List Signup) :
    List.Perm (insertByDate s l) (s :: l) := by
  induction l with
  | nil => simp [insertByDate]
  | cons t ts ih =>
    by_cases h : s.signupDate ≤ t.signupDate
    · simp [insertByDate, h]
    · simp only [insertByDate, if_neg h]
      exact (ih.cons t).trans (List.Perm.swap s t ts)

lemma sortByDate_perm (l : List Signup) : List.Perm (sortByDate l) l := by
  induction l with
  | nil => simp [sortByDate]
  | cons s ss ih =>
    exact (insertByDate_perm s (sortByDate ss)).trans (ih.cons s)

lemma mem_sortByDate {a : Signup} {l : List Signup} : a ∈ sortByDate l ↔ a ∈ l :=
  (sortByDate_perm l).mem_iff

lemma insertByDate_sorted {s : Signup} {l : List Signup}
    (h : l.Pairwise fun a b => a.signupDate ≤ b.signupDate) :
    (insertByDate s l).Pairwise fun a b => a.signupDate ≤ b.signupDate := by
  induction l with
  | nil => simp [insertByDate]
  | cons t ts ih =>
    by_cases hle : s.signupDate ≤ t.signupDate
    · simp only [insertByDate, if_pos hle]
      refine List.Pairwise.cons ?_ h
      intro b hb
      rcases List.mem_cons.mp hb with hb | hb
      · exact hb ▸ hle
      · exact le_trans hle ((List.pairwise_cons.mp h).1 b hb)
    · simp only [insertByDate, if_neg hle]
      have ht := List.pairwise_cons.mp h
      refine List.Pairwise.cons ?_ (ih ht.2)
      intro b hb
      rcases List.mem_cons.mp ((insertByDate_perm s ts).mem_iff.mp hb) with rfl | hb1
      · exact le_of_not_le hle
      · exact ht.1 b hb1

lemma sortByDate_sorted (l : List Signup) :
    (sortByDate l).Pairwise fun a b => a.signupDate ≤ b.signupDate := by
  induction l with
  | nil => simp [sortByDate]
  | cons s ss ih => exact insertByDate_sorted ih

/-- The head of the sorted list is a minimum-`signupDate` element. -/
lemma sortByDate_head_min {l : List Signup} {a : Signup}
    (h : (sortByDate l).head? = some a) :
    a ∈ l ∧ ∀ b ∈ l, a.signupDate ≤ b.signupDate := by
  rcases hs : sortByDate l with _ | ⟨x, xs⟩
  · rw [hs] at h; cases h
  · rw [hs] at h
    have hx : x = a := by simpa using h
    have hsorted := sortByDate_sorted l
    rw [hs, hx] at hsorted
    have hmem : a ∈ l := mem_sortByDate.mp (by rw [hs, hx]; exact List.mem_cons_self a xs)
    refine ⟨hmem, fun b hb => ?_⟩
    have hbmem : b ∈ a :: xs := by rw [← hx, ← hs]; exact mem_sortByDate.mpr hb
    rcases List.mem_cons.mp hbmem with rfl | hb'
    · exact le_refl _
    · exact (List.pairwise_cons.mp hsorted).1 b hb'

lemma sortByDate_eq_nil {l : List Signup} : sortByDate l = [] ↔ l = [] := by
  constructor
  · intro h
    have := sortByDate_perm l
    rw [h] at this
    exact this.symm.eq_nil
  · intro h; simp [h, sortByDate]

/-- With unique primary keys, updating row `i` splits the table around
the one affected row and leaves everything else in place. -/
lemma updateById_split (db : List Signup) (i : Nat) (new : Signup)
    (hN : (idsOf db).Nodup) {ex : Signup} (hex : ex ∈ db) (hid : ex.id = i) :
    ∃ l1 l2, db = l1 ++ ex :: l2 ∧ updateById db i new = l1 ++ new :: l2 ∧
      (∀ y ∈ l1, y.id ≠ i) ∧ (∀ y ∈ l2, y.id ≠ i) := by
  induction db with
  | nil => cases hex
  | cons t ts ih =>
    have hNt : (idsOf ts).Nodup := (List.nodup_cons.mp hN).2
    have htid : t.id ∉ idsOf ts := (List.nodup_cons.mp hN).1
    rcases List.mem_cons.mp hex with rfl | hmem
    · refine ⟨[], ts, rfl, ?_, ?_, ?_⟩
      · show List.map _ (ex :: ts) = [] ++ new :: ts
        rw [List.map_cons, if_pos hid, List.nil_append, List.cons.injEq]
        refine ⟨rfl, ?_⟩
        have : ∀ s ∈ ts, (if s.id = i then new else s) = s := by
          intro s hs
          rw [if_neg]
          intro hsid
          apply htid
          rw [hid, ← hsid]
          exact List.mem_map_of_mem Signup.id hs
        rw [List.map_congr_left this]
        exact List.map_id' ts
      · intro y hy; cases hy
      · intro y hy hyid
        apply htid
        rw [hid, ← hyid]
        exact List.mem_map_of_mem Signup.id hy
    · obtain ⟨l1, l2, hdb, hupd, h1, h2⟩ := ih hNt hmem
      have htne : t.id ≠ i := by
        intro hti
        apply htid
        rw [hti, ← hid]
        exact List.mem_map_of_mem Signup.id hmem
      refine ⟨t :: l1, l2, by rw [hdb, List.cons_append], ?_, ?_, h2⟩
      · show List.map _ (t :: ts) = t :: l1 ++ new :: l2
        rw [List.map_cons, if_neg htne, List.cons_append]
        exact congrArg (t :: ·) hupd
      · intro y hy
        rcases List.mem_cons.mp hy with rfl | hy'
        · exact htne
        · exact h1 y hy'

/-- Row counting through a keyed update: the updated row's contribution
is swapped for the new row's. -/
lemma countP_updateById (p : Signup → Bool) (db : List Signup) (i : Nat) (new : Signup)
    (hN : (idsOf db).Nodup) {ex : Signup} (hex : ex ∈ db) (hid : ex.id = i) :
    (updateById db i new).countP p + (if p ex then 1 else 0) =
      db.countP p + (if p new then 1 else 0) := by
  obtain ⟨l1, l2, hdb, hupd, -, -⟩ := updateById_split db i new hN hex hid
  rw [hupd, hdb]
  simp only [List.countP_append, List.countP_cons]
  omega

lemma mem_updateById_self (db : List Signup) (i : Nat) (new : Signup)
    {ex : Signup} (hex : ex ∈ db) (hid : ex.id = i) :
    new ∈ updateById db i new := by
  induction db with
  | nil => cases hex
  | cons t ts ih =>
    rcases List.mem_cons.mp hex with rfl | hmem
    · simp [updateById, hid]
    · simp only [updateById, List.map_cons]
      exact List.mem_cons_of_mem _ (ih hmem)

/-- A keyed update whose new row keeps the key leaves the key column
unchanged. -/
lemma idsOf_updateById (db : List Signup) (i : Nat) (new : Signup) (hid : new.id = i) :
    idsOf (updateById db i new) = idsOf db := by
  unfold idsOf updateById
  rw [List.map_map]
  apply List.map_congr_left
  intro s _
  by_cases h : s.id = i
  · simp [Function.comp, h, hid]
  · simp [Function.comp, h]

/-- Rows untouched by a keyed update stay in the table. -/
lemma mem_updateById_of_ne (db : List Signup) (i : Nat) (new : Signup)
    {s : Signup} (hs : s ∈ db) (hne : s.id ≠ i) :
    s ∈ updateById db i new := by
  induction db with
  | nil => cases hs
  | cons t ts ih =>
    rcases List.mem_cons.mp hs with rfl | hmem
    · simp only [updateById, List.map_cons, if_neg hne]
      exact List.mem_cons_self _ _
    · simp only [updateById, List.map_cons]
      exact List.mem_cons_of_mem _ (ih hmem)

lemma countP_mono_pred (p q : Signup → Bool) (db : List Signup)
    (h : ∀ s, p s = true → q s = true) : db.countP p ≤ db.countP q := by
  induction db with
  | nil => simp
  | cons t ts ih =>
    simp only [List.countP_cons]
    by_cases hp : p t = true
    · rw [if_pos hp, if_pos (h t hp)]; omega
    · rw [if_neg hp]
      split <;> omega

/-- Every CONFIRMED row is also a reserved row. -/
lemma confirmed_le_reserved (db : List Signup) (instId : Nat) (r : Role) :
    confirmedCount db instId r ≤ reservedCount db instId r := by
  apply countP_mono_pred
  intro s hs
  simp only [decide_eq_true_eq] at hs ⊢
  exact ⟨hs.1, hs.2.1, Or.inl hs.2.2⟩

lemma confirmedCount_append (a b : List Signup) (instId : Nat) (r : Role) :
    confirmedCount (a ++ b) instId r = confirmedCount a instId r + confirmedCount b instId r :=
  List.countP_append _ _ _

lemma mem_updateById (db : List Signup) (i : Nat) (new : Signup) {s : Signup}
    (h : s ∈ updateById db i new) : s = new ∨ s ∈ db := by
  unfold updateById at h
  obtain ⟨t, ht, hts⟩ := List.mem_map.mp h
  by_cases hc : t.id = i
  · rw [if_pos hc] at hts
    exact Or.inl hts.symm
  · rw [if_neg hc] at hts
    exact Or.inr (hts ▸ ht)

/-- What the shared find-next-and-promote step does: nothing on an empty
role-pool waitlist, otherwise it moves a minimum-`signupDate` WAITLIST
row to WAITLIST_PENDING stamped `now`. -/
lemma cascadePromote_spec (instId : Nat) (r : Role) (now : Int) (db : List Signup) :
    (waitlistFor db instId r = [] → cascadePromote instId r now db = (db, none, []))
    ∧ (∀ db' nxt ns, cascadePromote instId r now db = (db', some nxt, ns) →
        nxt ∈ waitlistFor db instId r
        ∧ (∀ w ∈ waitlistFor db instId r, nxt.signupDate ≤ w.signupDate)
        ∧ db' = updateById db nxt.id
            { nxt with status := .WAITLIST_PENDING, waitlistNotifiedAt := some now }
        ∧ ns = [⟨nxt.userId, instId, .SpotAvailable⟩])
    ∧ (waitlistFor db instId r ≠ [] →
        ∃ nxt, (cascadePromote instId r now db).2.1 = some nxt) := by
  rcases hh : (sortByDate (waitlistFor db instId r)).head? with _ | nxt0
  · have hnil : sortByDate (waitlistFor db instId r) = [] := List.head?_eq_none_iff.mp hh
    have hwl : waitlistFor db instId r = [] := sortByDate_eq_nil.mp hnil
    refine ⟨fun _ => ?_, fun db' nxt ns hcc => ?_, fun hne => absurd hwl hne⟩
    · unfold cascadePromote
      rw [hh]
    · unfold cascadePromote at hcc
      rw [hh] at hcc
      cases hcc
  · have hmin := sortByDate_head_min hh
    refine ⟨fun hwl => ?_, fun db' nxt ns hcc => ?_, fun _ => ?_⟩
    · rw [hwl] at hmin
      cases hmin.1
    · unfold cascadePromote at hcc
      rw [hh] at hcc
      obtain ⟨hdb, hnxt, hns⟩ := by
        simpa only [Prod.mk.injEq, Option.some.injEq] using hcc
      subst hnxt
      exact ⟨hmin.1, hmin.2, hdb.symm, hns.symm⟩
    · refine ⟨nxt0, ?_⟩
      unfold cascadePromote
      rw [hh]

lemma confirmedCount_updateById (db : List Signup) (instId : Nat) (r : Role) (i : Nat)
    (new : Signup) (hN : (idsOf db).Nodup) {ex : Signup} (hex : ex ∈ db) (hid : ex.id = i) :
    confirmedCount (updateById db i new) instId r +
      (if ex.instanceId = instId ∧ ex.role = r ∧ ex.status = .CONFIRMED then 1 else 0) =
    confirmedCount db instId r +
      (if new.instanceId = instId ∧ new.role = r ∧ new.status = .CONFIRMED then 1 else 0) := by
  have h := countP_updateById
    (fun s => decide (s.instanceId = instId ∧ s.role = r ∧ s.status = .CONFIRMED))
    db i new hN hex hid
  simpa [confirmedCount, decide_eq_true_eq] using h

/-- Guard-passing unfolding of the create transaction, fresh-insert case. -/
lemma createSignupTx_eq_core_none (ev : Event) (inst : EventInstance) (u : UserCtx)
    (newId : Nat) (now : Int) (race db : List Signup)
    (hev : ev.status = .PUBLISHED ∨ u.role = .ADMIN)
    (hen : inst.enabled = true) (hcanc : inst.status ≠ .CANCELLED)
    (hf : db.find? (sameUserInstance u.id inst.id) = none) :
    createSignupTx (some ev) (some inst) u newId now race db =
      createSignupCore inst u none newId now race db := by
  simp only [createSignupTx]
  rw [if_neg (fun hc => hev.elim hc.1 hc.2)]
  rw [if_neg (by intro hc; rw [hen] at hc; exact Bool.noConfusion hc)]
  rw [if_neg hcanc, hf]

/-- Guard-passing unfolding of the create transaction, revive case. -/
lemma createSignupTx_eq_core_revive (ev : Event) (inst : EventInstance) (u : UserCtx)
    (newId : Nat) (now : Int) (race db : List Signup) {ex : Signup}
    (hev : ev.status = .PUBLISHED ∨ u.role = .ADMIN)
    (hen : inst.enabled = true) (hcanc : inst.status ≠ .CANCELLED)
    (hf : db.find? (sameUserInstance u.id inst.id) = some ex)
    (hexc : ex.status = .CANCELLED) :
    createSignupTx (some ev) (some inst) u newId now race db =
      createSignupCore inst u (some ex) newId now race db := by
  simp only [createSignupTx]
  rw [if_neg (fun hc => hev.elim hc.1 hc.2)]
  rw [if_neg (by intro hc; rw [hen] at hc; exact Bool.noConfusion hc)]
  rw [if_neg hcanc, hf]
  show (if ex.status ≠ SignupStatus.CANCELLED then Except.error Err.AlreadySignedUp
    else createSignupCore inst u (some ex) newId now race db) = _
  rw [if_neg (fun hc => hc hexc)]

/-- Full and waitlist disabled: the transaction aborts with the conflict. -/
lemma createSignupCore_full (inst : EventInstance) (u : UserCtx) (revive : Option Signup)
    (newId : Nat) (now : Int) (race db : List Signup)
    (hres : reservedCount db inst.id u.role ≥ roleCapacity inst u.role)
    (hwl : inst.waitlistEnabled = false) :
    createSignupCore inst u revive newId now race db = .error .FullWaitlistDisabled := by
  simp only [createSignupCore]
  rw [if_pos hres, if_pos ⟨rfl, hwl⟩]

/-- Full and waitlist enabled: the row is written as WAITLIST. -/
lemma createSignupCore_waitlist (inst : EventInstance) (u : UserCtx) (revive : Option Signup)
    (newId : Nat) (now : Int) (race db : List Signup)
    (hres : reservedCount db inst.id u.role ≥ roleCapacity inst u.role)
    (hwl : inst.waitlistEnabled = true) :
    createSignupCore inst u revive newId now race db =
      .ok (insertedDb db revive (insertedRow u inst revive newId now .WAITLIST) ++ race,
           insertedRow u inst revive newId now .WAITLIST, .WAITLIST) := by
  simp only [createSignupCore]
  rw [if_pos hres]
  rw [if_neg (by intro hc; have h2 := hc.2; rw [hwl] at h2; exact Bool.noConfusion h2)]
  unfold backstopPhase
  rw [if_neg (by intro hc; exact SignupStatus.noConfusion hc)]

/-- Room left: the row is written CONFIRMED and handed to the backstop. -/
lemma createSignupCore_confirmed (inst : EventInstance) (u : UserCtx) (revive : Option Signup)
    (newId : Nat) (now : Int) (race db : List Signup)
    (hres : reservedCount db inst.id u.role < roleCapacity inst u.role) :
    createSignupCore inst u revive newId now race db =
      backstopPhase inst u.role (insertedRow u inst revive newId now .CONFIRMED) .CONFIRMED
        (insertedDb db revive (insertedRow u inst revive newId now .CONFIRMED) ++ race) := by
  simp only [createSignupCore]
  rw [if_neg (Nat.not_le.mpr hres)]
  rw [if_neg (by intro hc; exact SignupStatus.noConfusion hc.1)]

lemma backstopPhase_ok (inst : EventInstance) (r : Role) (row : Signup) (db2 : List Signup)
    (h : ¬ confirmedCount db2 inst.id r > roleCapacity inst r) :
    backstopPhase inst r row .CONFIRMED db2 = .ok (db2, row, .CONFIRMED) := by
  unfold backstopPhase
  rw [if_pos rfl, if_neg h]

/-- Inserting (or reviving into) a CONFIRMED row raises the role pool's
CONFIRMED count by one. -/
lemma confirmedCount_inserted_confirmed (inst : EventInstance) (u : UserCtx)
    (revive : Option Signup) (newId : Nat) (now : Int) (db : List Signup)
    (hN : (idsOf db).Nodup)
    (hrev : ∀ ex, revive = some ex → ex ∈ db ∧ ex.status = .CANCELLED ∧
      ex.instanceId = inst.id ∧ ex.role = u.role) :
    confirmedCount (insertedDb db revive (insertedRow u inst revive newId now .CONFIRMED))
        inst.id u.role = confirmedCount db inst.id u.role + 1 := by
  cases revive with
  | none =>
    show confirmedCount (db ++ [newSignup newId u.id inst.id u.role .CONFIRMED now])
        inst.id u.role = _
    rw [confirmedCount_append]
    have h1 : confirmedCount [newSignup newId u.id inst.id u.role .CONFIRMED now]
        inst.id u.role = 1 := by
      simp [confirmedCount, newSignup]
    rw [h1]
  | some ex =>
    obtain ⟨hmem, hcanc, hinst, hrole⟩ := hrev ex rfl
    show confirmedCount (updateById db ex.id { ex with status := SignupStatus.CONFIRMED })
        inst.id u.role = _
    have h := confirmedCount_updateById db inst.id u.role ex.id
      { ex with status := SignupStatus.CONFIRMED } hN hmem rfl
    rw [if_neg (by intro hc; rw [hcanc] at hc; exact SignupStatus.noConfusion hc.2.2)] at h
    rw [if_pos ⟨hinst, hrole, rfl⟩] at h
    omega

/-- Inserting (or reviving into) a WAITLIST row leaves the role pool's
CONFIRMED count unchanged. -/
lemma confirmedCount_inserted_waitlist (inst : EventInstance) (u : UserCtx)
    (revive : Option Signup) (newId : Nat) (now : Int) (db : List Signup)
    (hN : (idsOf db).Nodup)
    (hrev : ∀ ex, revive = some ex → ex ∈ db ∧ ex.status = .CANCELLED) :
    confirmedCount (insertedDb db revive (insertedRow u inst revive newId now .WAITLIST))
        inst.id u.role = confirmedCount db inst.id u.role := by
  cases revive with
  | none =>
    show confirmedCount (db ++ [newSignup newId u.id inst.id u.role .WAITLIST now])
        inst.id u.role = _
    rw [confirmedCount_append]
    have h1 : confirmedCount [newSignup newId u.id inst.id u.role .WAITLIST now]
        inst.id u.role = 0 := by
      simp [confirmedCount, newSignup]
    rw [h1]
    omega
  | some ex =>
    obtain ⟨hmem, hcanc⟩ := hrev ex rfl
    show confirmedCount (updateById db ex.id { ex with status := SignupStatus.WAITLIST })
        inst.id u.role = _
    have h := confirmedCount_updateById db inst.id u.role ex.id
      { ex with status := SignupStatus.WAITLIST } hN hmem rfl
    rw [if_neg (by intro hc; rw [hcanc] at hc; exact SignupStatus.noConfusion hc.2.2)] at h
    rw [if_neg (by intro hc; exact SignupStatus.noConfusion hc.2.2)] at h
    omega

/-- The written row is present in the post-insert table. -/
lemma insertedRow_mem (u : UserCtx) (inst : EventInstance) (revive : Option Signup)
    (newId : Nat) (now : Int) (st : SignupStatus) (db : List Signup)
    (hrev : ∀ ex, revive = some ex → ex ∈ db) :
    insertedRow u inst revive newId now st ∈ insertedDb db revive (insertedRow u inst revive newId now st) := by
  cases revive with
  | none =>
    show _ ∈ db ++ [_]
    exact List.mem_append_right _ (List.mem_singleton.mpr rfl)
  | some ex =>
    exact mem_updateById_self db ex.id _ (hrev ex rfl) rfl

/-- Key-column facts about the post-insert table. -/
lemma idsOf_insertedDb_none (db : List Signup) (row : Signup) :
    idsOf (insertedDb db none row) = idsOf db ++ [row.id] := by
  show idsOf (db ++ [row]) = _
  unfold idsOf
  rw [List.map_append]
  rfl

lemma idsOf_insertedDb_revive (db : List Signup) (ex : Signup) (row : Signup)
    (hid : row.id = ex.id) :
    idsOf (insertedDb db (some ex) row) = idsOf db := by
  show idsOf (updateById db ex.id row) = _
  exact idsOf_updateById db ex.id row hid

lemma idsOf_append (a b : List Signup) : idsOf (a ++ b) = idsOf a ++ idsOf b :=
  List.map_append _ _ _

/-- End-to-end capacity preservation through the decision, insert and
backstop phases, for any interference `race` that itself respected the
capacity bound. -/
lemma createSignupCore_capacity (inst : EventInstance) (u : UserCtx) (revive : Option Signup)
    (newId : Nat) (now : Int) (race db : List Signup)
    (hN : (idsOf (db ++ race)).Nodup)
    (hfresh : revive = none → newId ∉ idsOf (db ++ race))
    (hrev : ∀ ex, revive = some ex → ex ∈ db ∧ ex.status = .CANCELLED ∧
      ex.instanceId = inst.id ∧ ex.role = u.role)
    (hpre : confirmedCount (db ++ race) inst.id u.role ≤ roleCapacity inst u.role) :
    confirmedCount (commitDb (db ++ race) (createSignupCore inst u revive newId now race db))
      inst.id u.role ≤ roleCapacity inst u.role := by
  have hNdb : (idsOf db).Nodup := by
    rw [idsOf_append] at hN
    exact hN.of_append_left
  have hcntDR : confirmedCount (db ++ race) inst.id u.role =
      confirmedCount db inst.id u.role + confirmedCount race inst.id u.role :=
    confirmedCount_append db race inst.id u.role
  by_cases hres : reservedCount db inst.id u.role < roleCapacity inst u.role
  · -- CONFIRMED decision
    rw [createSignupCore_confirmed inst u revive newId now race db hres]
    have hrowinst : (insertedRow u inst revive newId now .CONFIRMED).instanceId = inst.id := by
      cases revive with
      | none => rfl
      | some ex => exact (hrev ex rfl).2.2.1
    have hrowrole : (insertedRow u inst revive newId now .CONFIRMED).role = u.role := by
      cases revive with
      | none => rfl
      | some ex => exact (hrev ex rfl).2.2.2
    have hrowmem : insertedRow u inst revive newId now .CONFIRMED ∈
        insertedDb db revive (insertedRow u inst revive newId now .CONFIRMED) :=
      insertedRow_mem u inst revive newId now .CONFIRMED db (fun ex h => (hrev ex h).1)
    have hcnt2 : confirmedCount
        (insertedDb db revive (insertedRow u inst revive newId now .CONFIRMED) ++ race)
        inst.id u.role =
        confirmedCount db inst.id u.role + confirmedCount race inst.id u.role + 1 := by
      rw [confirmedCount_append,
        confirmedCount_inserted_confirmed inst u revive newId now db hNdb hrev]
      omega
    have hids2 : (idsOf
        (insertedDb db revive (insertedRow u inst revive newId now .CONFIRMED) ++ race)).Nodup := by
      cases revive with
      | none =>
        rw [idsOf_append, idsOf_insertedDb_none]
        have hperm : List.Perm ((idsOf db ++ [newId]) ++ idsOf race)
            (newId :: (idsOf db ++ idsOf race)) := by
          rw [List.append_assoc]
          exact List.perm_middle
        rw [idsOf_append] at hN
        refine hperm.nodup_iff.mpr (List.nodup_cons.mpr ⟨?_, hN⟩)
        rw [← idsOf_append]
        exact hfresh rfl
      | some ex =>
        rw [idsOf_append,
          idsOf_insertedDb_revive db ex (insertedRow u inst (some ex) newId now .CONFIRMED) rfl,
          ← idsOf_append]
        exact hN
    unfold backstopPhase
    rw [if_pos rfl]
    by_cases hov : confirmedCount
        (insertedDb db revive (insertedRow u inst revive newId now .CONFIRMED) ++ race)
        inst.id u.role > roleCapacity inst u.role
    · rw [if_pos hov]
      cases hwlb : inst.waitlistEnabled with
      | false =>
        rw [if_neg (fun h => Bool.noConfusion h)]
        exact hpre
      | true =>
        rw [if_pos rfl]
        show confirmedCount (updateById _ _ _) inst.id u.role ≤ _
        have hupd := confirmedCount_updateById
          (insertedDb db revive (insertedRow u inst revive newId now .CONFIRMED) ++ race)
          inst.id u.role (insertedRow u inst revive newId now .CONFIRMED).id
          { insertedRow u inst revive newId now .CONFIRMED with status := SignupStatus.WAITLIST }
          hids2 (List.mem_append_left race hrowmem) rfl
        rw [if_pos ⟨hrowinst, hrowrole, by
          cases revive with
          | none => rfl
          | some ex => rfl⟩] at hupd
        rw [if_neg (fun hc => SignupStatus.noConfusion hc.2.2)] at hupd
        have hgoal : confirmedCount
            (updateById (insertedDb db revive (insertedRow u inst revive newId now
                SignupStatus.CONFIRMED) ++ race)
              (insertedRow u inst revive newId now SignupStatus.CONFIRMED).id
              { insertedRow u inst revive newId now SignupStatus.CONFIRMED with
                status := SignupStatus.WAITLIST })
            inst.id u.role ≤ roleCapacity inst u.role := by
          omega
        exact hgoal
    · rw [if_neg hov]
      show confirmedCount
          (insertedDb db revive (insertedRow u inst revive newId now .CONFIRMED) ++ race)
          inst.id u.role ≤ _
      omega
  · -- WAITLIST decision (or rejection)
    have hres' : reservedCount db inst.id u.role ≥ roleCapacity inst u.role := Nat.not_lt.mp hres
    cases hwlb : inst.waitlistEnabled with
    | false =>
      rw [createSignupCore_full inst u revive newId now race db hres' hwlb]
      exact hpre
    | true =>
      rw [createSignupCore_waitlist inst u revive newId now race db hres' hwlb]
      show confirmedCount
          (insertedDb db revive (insertedRow u inst revive newId now .WAITLIST) ++ race)
          inst.id u.role ≤ _
      rw [confirmedCount_append,
        confirmedCount_inserted_waitlist inst u revive newId now db hNdb
          (fun ex h => ⟨(hrev ex h).1, (hrev ex h).2.1⟩)]
      omega

lemma mem_cascadePromote_ids (instId : Nat) (r : Role) (now : Int) (db : List Signup)
    {s : Signup} (hs : s ∈ (cascadePromote instId r now db).1) : s.id ∈ idsOf db := by
  unfold cascadePromote at hs
  rcases hh : (sortByDate (waitlistFor db instId r)).head? with _ | nxt
  · rw [hh] at hs
    exact List.mem_map_of_mem Signup.id hs
  · rw [hh] at hs
    have hnxtdb : nxt ∈ db := (List.mem_filter.mp (sortByDate_head_min hh).1).1
    rcases mem_updateById _ _ _ hs with rfl | hs2
    · show nxt.id ∈ idsOf db
      exact List.mem_map_of_mem Signup.id hnxtdb
    · exact List.mem_map_of_mem Signup.id hs2

/-- One expired row's transaction deletes the row (and only rows whose
keys were already in the table remain) and emits the expiry
notification. -/
lemma processTimeout_fact (now : Int) (row : Signup) (db : List Signup) :
    (∀ s ∈ (processTimeout now row db).1, s.id ∈ idsOf db ∧ s.id ≠ row.id)
    ∧ (⟨row.userId, row.instanceId, .OfferExpired⟩ : Notif) ∈ (processTimeout now row db).2 := by
  constructor
  · intro s hs
    have hs1 : s ∈ (cascadePromote row.instanceId row.role now
        (db.filter fun s => decide (s.id ≠ row.id))).1 := hs
    have hid := mem_cascadePromote_ids _ _ _ _ hs1
    obtain ⟨t, ht, hts⟩ := List.mem_map.mp hid
    have htmem := List.mem_filter.mp ht
    have htne : t.id ≠ row.id := by simpa using htmem.2
    exact ⟨hts ▸ List.mem_map_of_mem Signup.id htmem.1, hts ▸ htne⟩
  · exact List.mem_cons_self _ _

lemma sweepGo_idsOf_subset (now : Int) (fails : Nat → Bool) (rows : List Signup) (i : Nat)
    (db : List Signup) (ns : List Notif) :
    ∀ x ∈ idsOf (sweepGo now fails rows i db ns).1, x ∈ idsOf db := by
  induction rows generalizing i db ns with
  | nil => exact fun x hx => hx
  | cons r rs ih =>
    intro x hx
    unfold sweepGo at hx
    by_cases hf : fails i
    · rw [if_pos hf] at hx
      exact hx
    · rw [if_neg hf] at hx
      have hx2 := ih (i + 1) (processTimeout now r db).1 _ x hx
      obtain ⟨t, ht, hts⟩ := List.mem_map.mp hx2
      exact hts ▸ ((processTimeout_fact now r db).1 t ht).1

lemma sweepGo_notifs_mono (now : Int) (fails : Nat → Bool) (rows : List Signup) (i : Nat)
    (db : List Signup) (ns : List Notif) {n : Notif} (hn : n ∈ ns) :
    n ∈ (sweepGo now fails rows i db ns).2 := by
  induction rows generalizing i db ns with
  | nil => exact hn
  | cons r rs ih =>
    unfold sweepGo
    by_cases hf : fails i
    · rw [if_pos hf]
      exact hn
    · rw [if_neg hf]
      exact ih (i + 1) _ _ (List.mem_append_left _ hn)

/-- In a failure-free tick every listed row is deleted and its expiry
notification emitted. -/
lemma sweepGo_no_fail (now : Int) (rows : List Signup) (i : Nat) (db : List Signup)
    (ns : List Notif) :
    ∀ r ∈ rows,
      (∀ s ∈ (sweepGo now (fun _ => false) rows i db ns).1, s.id ≠ r.id)
      ∧ (⟨r.userId, r.instanceId, .OfferExpired⟩ : Notif) ∈
          (sweepGo now (fun _ => false) rows i db ns).2 := by
  induction rows generalizing i db ns with
  | nil => intro r hr; cases hr
  | cons r0 rs ih =>
    intro r hr
    rcases List.mem_cons.mp hr with rfl | hr2
    · constructor
      · intro s hs
        unfold sweepGo at hs
        rw [if_neg (fun h => Bool.noConfusion h)] at hs
        have hsid : s.id ∈ idsOf (processTimeout now r db).1 :=
          sweepGo_idsOf_subset now _ rs (i + 1) _ _ s.id (List.mem_map_of_mem Signup.id hs)
        obtain ⟨t, ht, hts⟩ := List.mem_map.mp hsid
        have hne := ((processTimeout_fact now r db).1 t ht).2
        rw [hts] at hne
        exact hne
      · unfold sweepGo
        rw [if_neg (fun h => Bool.noConfusion h)]
        exact sweepGo_notifs_mono now _ rs (i + 1) _ _
          (List.mem_append_right _ (processTimeout_fact now r db).2)
    · unfold sweepGo
      rw [if_neg (fun h => Bool.noConfusion h)]
      exact ih (i + 1) _ _ r hr2

/-! # Claim theorems -/

/-- Claim C3: `PromoteWaitlisted(instance, role, slotsAvailable)` selects at
most `slotsAvailable` signups with status WAITLIST for that instance and role,
in strictly ascending `signupDate` order (the earliest-signed entry is always
promoted first), transitions each selected signup to WAITLIST_PENDING with
`waitlistNotifiedAt` set to the current time, and returns exactly the promoted
set.  (Strictness uses the data-model invariant that waitlist `signupDate`s
within a role pool are distinct, taken as the `hdates` hypothesis.) -/
theorem promoteWaitlisted_spec (db : List Signup) (instId : Nat) (r : Role)
    (slots : Nat) (now : Int) (db' promoted : List Signup) (ns : List Notif)
    (hdates : ((waitlistFor db instId r).map Signup.signupDate).Nodup)
    (h : promoteWaitlistedUsers db instId r slots now = (db', promoted, ns)) :
    promoted.length ≤ slots
    ∧ (∀ x ∈ promoted, x ∈ db ∧ x.instanceId = instId ∧ x.status = .WAITLIST ∧ x.role = r)
    ∧ promoted.Pairwise (fun a b => a.signupDate < b.signupDate)
    ∧ (∀ x ∈ promoted, ∀ w ∈ waitlistFor db instId r, w ∉ promoted →
        x.signupDate ≤ w.signupDate)
    ∧ (∀ s ∈ db, s.id ∈ promoted.map Signup.id →
        { s with status := SignupStatus.WAITLIST_PENDING, waitlistNotifiedAt := some now } ∈ db')
    ∧ (∀ s ∈ db, s.id ∉ promoted.map Signup.id → s ∈ db')
    ∧ ns = promoted.map fun s => ⟨s.userId, instId, .SpotAvailable⟩ := by
  simp only [promoteWaitlistedUsers, Prod.mk.injEq] at h
  obtain ⟨hdb, hpro, hns⟩ := h
  subst hdb
  subst hpro
  subst hns
  refine ⟨?_, ?_, ?_, ?_, ?_, ?_, rfl⟩
  · rw [List.length_take]
    exact Nat.min_le_left _ _
  · intro x hx
    have hx2 : x ∈ waitlistFor db instId r :=
      mem_sortByDate.mp (List.mem_of_mem_take hx)
    have := List.mem_filter.mp hx2
    simp only [decide_eq_true_eq] at this
    exact ⟨this.1, this.2.1, this.2.2.1, this.2.2.2⟩
  · have hsorted := sortByDate_sorted (waitlistFor db instId r)
    have hND : ((sortByDate (waitlistFor db instId r)).map Signup.signupDate).Nodup :=
      (((sortByDate_perm (waitlistFor db instId r)).map Signup.signupDate).nodup_iff).mpr hdates
    have hne : (sortByDate (waitlistFor db instId r)).Pairwise
        fun a b => a.signupDate ≠ b.signupDate := List.pairwise_map.mp hND
    have hlt : (sortByDate (waitlistFor db instId r)).Pairwise
        fun a b => a.signupDate < b.signupDate :=
      (hsorted.and hne).imp fun hab => lt_of_le_of_ne hab.1 hab.2
    exact hlt.sublist (List.take_sublist _ _)
  · intro x hx w hw hwn
    have hw2 : w ∈ sortByDate (waitlistFor db instId r) := mem_sortByDate.mpr hw
    rw [← List.take_append_drop slots (sortByDate (waitlistFor db instId r))] at hw2
    rcases List.mem_append.mp hw2 with hw3 | hw3
    · exact absurd hw3 hwn
    · have hsorted := sortByDate_sorted (waitlistFor db instId r)
      rw [← List.take_append_drop slots (sortByDate (waitlistFor db instId r))] at hsorted
      exact (List.pairwise_append.mp hsorted).2.2 x hx w hw3
  · intro s hs hsid
    have hc : (((sortByDate (waitlistFor db instId r)).take slots).map Signup.id).contains s.id
        = true := List.elem_eq_true_of_mem hsid
    have heq : (fun s => if (((sortByDate (waitlistFor db instId r)).take slots).map
          Signup.id).contains s.id
        then { s with status := SignupStatus.WAITLIST_PENDING, waitlistNotifiedAt := some now }
        else s) s
        = { s with status := SignupStatus.WAITLIST_PENDING, waitlistNotifiedAt := some now } := by
      simp only [hc, if_true]
    rw [← heq]
    exact List.mem_map_of_mem _ hs
  · intro s hs hsid
    have hc : ¬ ((((sortByDate (waitlistFor db instId r)).take slots).map
        Signup.id).contains s.id = true) :=
      fun hco => hsid (List.mem_of_elem_eq_true hco)
    have heq : (fun s => if (((sortByDate (waitlistFor db instId r)).take slots).map
          Signup.id).contains s.id
        then { s with status := SignupStatus.WAITLIST_PENDING, waitlistNotifiedAt := some now }
        else s) s = s := by
      simp only [if_neg hc]
    rw [← heq]
    exact List.mem_map_of_mem _ hs

/-- Witness for C3: promoting 2 slots from a three-row student waitlist with
dates 10, 5, 20 selects the two earliest in strictly ascending order. -/
theorem promoteWaitlisted_spec_witness :
    ((promoteWaitlistedUsers
        [⟨1, 11, 0, .STUDENT, .WAITLIST, 10, none, none⟩,
         ⟨2, 12, 0, .STUDENT, .WAITLIST, 5, none, none⟩,
         ⟨3, 13, 0, .STUDENT, .WAITLIST, 20, none, none⟩] 0 .STUDENT 2 100).2.1).length ≤ 2
    ∧ List.Pairwise (fun a b => a.signupDate < b.signupDate)
        ((promoteWaitlistedUsers
        [⟨1, 11, 0, .STUDENT, .WAITLIST, 10, none, none⟩,
         ⟨2, 12, 0, .STUDENT, .WAITLIST, 5, none, none⟩,
         ⟨3, 13, 0, .STUDENT, .WAITLIST, 20, none, none⟩] 0 .STUDENT 2 100).2.1) :=
  ⟨(promoteWaitlisted_spec _ 0 .STUDENT 2 100 _ _ _ (by decide) rfl).1,
   (promoteWaitlisted_spec _ 0 .STUDENT 2 100 _ _ _ (by decide) rfl).2.2.1⟩

/-- Claim C4: `AcceptOffer(participant, instance)` fails with a not-found
error when no WAITLIST_PENDING signup exists for the participant and
instance; fails with Expired when `waitlistNotifiedAt` is older than 12
hours; fails with Conflict when the CONFIRMED count of the participant's
role has reached capacity; otherwise marks the signup CONFIRMED, clears
`waitlistNotifiedAt`, and resets `signupDate` to the acceptance time. -/
theorem acceptWaitlist_spec (inst : EventInstance) (uid : Nat) (now : Int) (db : List Signup) :
    (db.find? (isPendingFor uid inst.id) = none →
      acceptWaitlistTx inst uid now db = .error .NoPendingSpot)
    ∧ (∀ p t, db.find? (isPendingFor uid inst.id) = some p →
        p.waitlistNotifiedAt = some t → t < now - twelveHoursMs →
        acceptWaitlistTx inst uid now db = .error .OfferExpired)
    ∧ (∀ p t, db.find? (isPendingFor uid inst.id) = some p →
        p.waitlistNotifiedAt = some t → ¬ t < now - twelveHoursMs →
        confirmedCount db inst.id p.role ≥ roleCapacity inst p.role →
        acceptWaitlistTx inst uid now db = .error .SessionNowFull)
    ∧ (∀ p t, db.find? (isPendingFor uid inst.id) = some p →
        p.waitlistNotifiedAt = some t → ¬ t < now - twelveHoursMs →
        confirmedCount db inst.id p.role < roleCapacity inst p.role →
        acceptWaitlistTx inst uid now db =
          .ok (updateById db p.id (acceptedRow p now), acceptedRow p now)
        ∧ (acceptedRow p now).status = .CONFIRMED
        ∧ (acceptedRow p now).waitlistNotifiedAt = none
        ∧ (acceptedRow p now).signupDate = now) := by
  refine ⟨fun hf => ?_, fun p t hf hw hexp => ?_, fun p t hf hw hexp hfull => ?_,
    fun p t hf hw hexp hroom => ?_⟩
  · unfold acceptWaitlistTx
    rw [hf]
  · simp only [acceptWaitlistTx, hf, hw, decide_eq_true_eq]
    rw [if_pos hexp]
  · simp only [acceptWaitlistTx, hf, hw, decide_eq_true_eq]
    rw [if_neg hexp, if_pos hfull]
  · simp only [acceptWaitlistTx, hf, hw, decide_eq_true_eq]
    rw [if_neg hexp, if_neg (Nat.not_le.mpr hroom)]
    exact ⟨rfl, rfl, rfl, rfl⟩

/-- Witness for C4 at a one-row table: an in-window offer with one free
seat is accepted, and the same table rejects the other three paths at
suitable inputs. -/
theorem acceptWaitlist_spec_witness :
    acceptWaitlistTx
        { id := 0, studentCapacity := 1, parentCapacity := 0, enabled := true,
          waitlistEnabled := true, status := .ACTIVE } 15 100
        [⟨5, 15, 0, .STUDENT, .WAITLIST_PENDING, 8, some 0, none⟩] =
      .ok (updateById [⟨5, 15, 0, .STUDENT, .WAITLIST_PENDING, 8, some 0, none⟩] 5
            (acceptedRow ⟨5, 15, 0, .STUDENT, .WAITLIST_PENDING, 8, some 0, none⟩ 100),
          acceptedRow ⟨5, 15, 0, .STUDENT, .WAITLIST_PENDING, 8, some 0, none⟩ 100)
    ∧ acceptWaitlistTx
        { id := 0, studentCapacity := 1, parentCapacity := 0, enabled := true,
          waitlistEnabled := true, status := .ACTIVE } 15 50000000
        [⟨5, 15, 0, .STUDENT, .WAITLIST_PENDING, 8, some 0, none⟩] = .error .OfferExpired
    ∧ acceptWaitlistTx
        { id := 0, studentCapacity := 0, parentCapacity := 0, enabled := true,
          waitlistEnabled := true, status := .ACTIVE } 15 100
        [⟨5, 15, 0, .STUDENT, .WAITLIST_PENDING, 8, some 0, none⟩] = .error .SessionNowFull
    ∧ acceptWaitlistTx
        { id := 0, studentCapacity := 1, parentCapacity := 0, enabled := true,
          waitlistEnabled := true, status := .ACTIVE } 16 100
        [⟨5, 15, 0, .STUDENT, .WAITLIST_PENDING, 8, some 0, none⟩] = .error .NoPendingSpot :=
  ⟨((acceptWaitlist_spec _ 15 100 _).2.2.2 ⟨5, 15, 0, .STUDENT, .WAITLIST_PENDING, 8, some 0, none⟩
      0 (by decide) (by decide) (by decide) (by decide)).1,
   (acceptWaitlist_spec _ 15 50000000 _).2.1 ⟨5, 15, 0, .STUDENT, .WAITLIST_PENDING, 8, some 0, none⟩
      0 (by decide) (by decide) (by decide),
   (acceptWaitlist_spec _ 15 100 _).2.2.1 ⟨5, 15, 0, .STUDENT, .WAITLIST_PENDING, 8, some 0, none⟩
      0 (by decide) (by decide) (by decide) (by decide),
   (acceptWaitlist_spec _ 16 100 _).1 (by decide)⟩

/-- Claim C5: `DeclineOffer(participant, instance)` fails with a NotFound
domain error when no WAITLIST_PENDING signup exists for the participant
and instance (so a second decline never silently succeeds); on success it
deletes the signup row and, in the same transaction, promotes a
minimum-`signupDate` WAITLIST signup of the same role (if any) to
WAITLIST_PENDING with a fresh `waitlistNotifiedAt`. -/
theorem declineWaitlist_spec (instId uid : Nat) (now : Int) (db : List Signup) :
    (db.find? (isPendingFor uid instId) = none →
      declineWaitlistTx instId uid now db = .error .NoPendingSpot)
    ∧ (∀ p, db.find? (isPendingFor uid instId) = some p →
        (∃ db' onxt ns, declineWaitlistTx instId uid now db = .ok (db', onxt, ns))
        ∧ (∀ db' onxt ns, declineWaitlistTx instId uid now db = .ok (db', onxt, ns) →
            (∀ s ∈ db', s.id ≠ p.id)
            ∧ (onxt = none →
                waitlistFor (db.filter fun s => decide (s.id ≠ p.id)) instId p.role = []
                ∧ db' = db.filter fun s => decide (s.id ≠ p.id))
            ∧ (∀ nxt, onxt = some nxt →
                nxt ∈ waitlistFor (db.filter fun s => decide (s.id ≠ p.id)) instId p.role
                ∧ (∀ w ∈ waitlistFor (db.filter fun s => decide (s.id ≠ p.id)) instId p.role,
                    nxt.signupDate ≤ w.signupDate)
                ∧ db' = updateById (db.filter fun s => decide (s.id ≠ p.id)) nxt.id
                    { nxt with status := .WAITLIST_PENDING, waitlistNotifiedAt := some now }))) := by
  constructor
  · intro hf
    unfold declineWaitlistTx
    rw [hf]
  · intro p hf
    have hdel : ∀ s ∈ db.filter (fun s => decide (s.id ≠ p.id)), s.id ≠ p.id := by
      intro s hs
      have := (List.mem_filter.mp hs).2
      simpa using this
    constructor
    · simp only [declineWaitlistTx, hf]
      exact ⟨_, _, _, rfl⟩
    · intro db' onxt ns hok
      unfold declineWaitlistTx at hok
      rw [hf] at hok
      obtain ⟨hdb', honxt, hns⟩ := by
        simpa only [Except.ok.injEq, Prod.mk.injEq] using hok
      have hcs := cascadePromote_spec instId p.role now (db.filter fun s => decide (s.id ≠ p.id))
      refine ⟨?_, ?_, ?_⟩
      · intro s hs
        rcases hc : (cascadePromote instId p.role now
            (db.filter fun s => decide (s.id ≠ p.id))).2.1 with _ | nxt
        · -- nothing promoted: the result table is the filtered table
          rcases hwl : waitlistFor (db.filter fun s => decide (s.id ≠ p.id)) instId p.role with
            _ | ⟨x, xs⟩
          · have := (hcs.1 hwl)
            rw [← hdb', this] at hs
            exact hdel s hs
          · obtain ⟨nxt, hsome⟩ := hcs.2.2 (by rw [hwl]; exact fun hh => List.noConfusion hh)
            rw [hc] at hsome
            cases hsome
        · have hfull : cascadePromote instId p.role now
              (db.filter fun s => decide (s.id ≠ p.id)) =
              ((cascadePromote instId p.role now (db.filter fun s => decide (s.id ≠ p.id))).1,
               some nxt,
               (cascadePromote instId p.role now (db.filter fun s => decide (s.id ≠ p.id))).2.2) := by
            rw [← hc]
          obtain ⟨hmem, -, hupd, -⟩ := hcs.2.1 _ nxt _ hfull
          rw [← hdb', hupd] at hs
          rcases mem_updateById _ _ _ hs with rfl | hs2
          · exact hdel nxt (List.mem_filter.mp hmem).1
          · exact hdel s hs2
      · intro hnone
        rw [← honxt] at hnone
        rcases hwl : waitlistFor (db.filter fun s => decide (s.id ≠ p.id)) instId p.role with
          _ | ⟨x, xs⟩
        · have := hcs.1 hwl
          rw [← hdb', this]
          exact ⟨rfl, rfl⟩
        · obtain ⟨nxt, hsome⟩ := hcs.2.2 (by rw [hwl]; exact fun hh => List.noConfusion hh)
          rw [hnone] at hsome
          cases hsome
      · intro nxt hsome
        rw [← honxt] at hsome
        have hfull : cascadePromote instId p.role now
            (db.filter fun s => decide (s.id ≠ p.id)) =
            ((cascadePromote instId p.role now (db.filter fun s => decide (s.id ≠ p.id))).1,
             some nxt,
             (cascadePromote instId p.role now (db.filter fun s => decide (s.id ≠ p.id))).2.2) := by
          rw [← hsome]
        obtain ⟨hmem, hmin, hupd, -⟩ := hcs.2.1 _ nxt _ hfull
        rw [← hdb']
        exact ⟨hmem, hmin, hupd⟩

/-- Witness for C5: declining the only pending offer deletes it and
promotes the earlier of the two remaining waitlist rows. -/
theorem declineWaitlist_spec_witness :
    (∃ db' onxt ns,
      declineWaitlistTx 0 15 100
        [⟨5, 15, 0, .STUDENT, .WAITLIST_PENDING, 8, some 0, none⟩,
         ⟨1, 11, 0, .STUDENT, .WAITLIST, 10, none, none⟩,
         ⟨2, 12, 0, .STUDENT, .WAITLIST, 5, none, none⟩] = .ok (db', onxt, ns))
    ∧ declineWaitlistTx 0 16 100
        [⟨5, 15, 0, .STUDENT, .WAITLIST_PENDING, 8, some 0, none⟩] = .error .NoPendingSpot :=
  ⟨((declineWaitlist_spec 0 15 100 _).2
      ⟨5, 15, 0, .STUDENT, .WAITLIST_PENDING, 8, some 0, none⟩ (by decide)).1,
   (declineWaitlist_spec 0 16 100 _).1 (by decide)⟩

/-- Claim C2: CreateSignup decides the new signup's status from the reserved
count for the signer's role on the target instance (CONFIRMED plus
WAITLIST_PENDING): CONFIRMED when `reservedCount < capacity`; otherwise
WAITLIST when the instance's waitlist is enabled; otherwise the request is
rejected with the full/waitlist-disabled Conflict and no signup row is
created (the transaction rolls back to the original table). -/
theorem createSignup_decision (ev : Event) (inst : EventInstance) (u : UserCtx)
    (newId : Nat) (now : Int) (db : List Signup)
    (hev : ev.status = .PUBLISHED ∨ u.role = .ADMIN)
    (hen : inst.enabled = true) (hcanc : inst.status ≠ .CANCELLED)
    (hdup : ∀ ex, db.find? (sameUserInstance u.id inst.id) = some ex → ex.status = .CANCELLED)
    (hrole : ∀ s ∈ db, s.userId = u.id → s.role = u.role)
    (hN : (idsOf db).Nodup) :
    (reservedCount db inst.id u.role < roleCapacity inst u.role →
      ∃ db' s, createSignupTx (some ev) (some inst) u newId now [] db = .ok (db', s, .CONFIRMED))
    ∧ (reservedCount db inst.id u.role ≥ roleCapacity inst u.role →
        inst.waitlistEnabled = true →
        ∃ db' s, createSignupTx (some ev) (some inst) u newId now [] db = .ok (db', s, .WAITLIST))
    ∧ (reservedCount db inst.id u.role ≥ roleCapacity inst u.role →
        inst.waitlistEnabled = false →
        createSignupTx (some ev) (some inst) u newId now [] db = .error .FullWaitlistDisabled
        ∧ commitDb db (createSignupTx (some ev) (some inst) u newId now [] db) = db) := by
  rcases hff : db.find? (sameUserInstance u.id inst.id) with _ | ex
  · have htx := createSignupTx_eq_core_none ev inst u newId now [] db hev hen hcanc hff
    refine ⟨fun hres => ?_, fun hres hwl => ?_, fun hres hwl => ?_⟩
    · rw [htx, createSignupCore_confirmed _ _ _ _ _ _ _ hres]
      have hins := confirmedCount_inserted_confirmed inst u none newId now db hN
        (by intro ex hx; cases hx)
      have hle : confirmedCount
          (insertedDb db none (insertedRow u inst none newId now .CONFIRMED) ++ [])
          inst.id u.role ≤ roleCapacity inst u.role := by
        rw [List.append_nil, hins]
        have := confirmed_le_reserved db inst.id u.role
        omega
      rw [backstopPhase_ok _ _ _ _ (Nat.not_lt.mpr hle)]
      exact ⟨_, _, rfl⟩
    · rw [htx, createSignupCore_waitlist _ _ _ _ _ _ _ hres hwl]
      exact ⟨_, _, rfl⟩
    · have herr : createSignupTx (some ev) (some inst) u newId now [] db =
          .error .FullWaitlistDisabled := by
        rw [htx]
        exact createSignupCore_full _ _ _ _ _ _ _ hres hwl
      exact ⟨herr, by rw [herr]; rfl⟩
  · have hexc := hdup ex hff
    have hmem : ex ∈ db := List.mem_of_find?_eq_some hff
    have hpred := List.find?_some hff
    simp only [sameUserInstance, decide_eq_true_eq] at hpred
    have hrev : ∀ ex', some ex = some ex' → ex' ∈ db ∧ ex'.status = .CANCELLED ∧
        ex'.instanceId = inst.id ∧ ex'.role = u.role := by
      intro ex' hx
      cases hx
      exact ⟨hmem, hexc, hpred.2, hrole ex hmem hpred.1⟩
    have htx := createSignupTx_eq_core_revive ev inst u newId now [] db hev hen hcanc hff hexc
    refine ⟨fun hres => ?_, fun hres hwl => ?_, fun hres hwl => ?_⟩
    · rw [htx, createSignupCore_confirmed _ _ _ _ _ _ _ hres]
      have hins := confirmedCount_inserted_confirmed inst u (some ex) newId now db hN hrev
      have hle : confirmedCount
          (insertedDb db (some ex) (insertedRow u inst (some ex) newId now .CONFIRMED) ++ [])
          inst.id u.role ≤ roleCapacity inst u.role := by
        rw [List.append_nil, hins]
        have := confirmed_le_reserved db inst.id u.role
        omega
      rw [backstopPhase_ok _ _ _ _ (Nat.not_lt.mpr hle)]
      exact ⟨_, _, rfl⟩
    · rw [htx, createSignupCore_waitlist _ _ _ _ _ _ _ hres hwl]
      exact ⟨_, _, rfl⟩
    · have herr : createSignupTx (some ev) (some inst) u newId now [] db =
          .error .FullWaitlistDisabled := by
        rw [htx]
        exact createSignupCore_full _ _ _ _ _ _ _ hres hwl
      exact ⟨herr, by rw [herr]; rfl⟩

/-- Witness for C2: at capacity 1 with an empty table a signup is CONFIRMED;
at capacity 0 with the waitlist enabled it is WAITLIST; at capacity 0 with
the waitlist disabled the transaction fails with the Conflict and commits
nothing (scenario of the spec: capacity=0, waitlist disabled). -/
theorem createSignup_decision_witness :
    (∃ db' s, createSignupTx (some ⟨0, .PUBLISHED⟩)
        (some { id := 0, studentCapacity := 1, parentCapacity := 0, enabled := true,
                waitlistEnabled := true, status := .ACTIVE }) ⟨20, .STUDENT⟩ 9 50 [] [] =
      .ok (db', s, .CONFIRMED))
    ∧ (∃ db' s, createSignupTx (some ⟨0, .PUBLISHED⟩)
        (some { id := 0, studentCapacity := 0, parentCapacity := 0, enabled := true,
                waitlistEnabled := true, status := .ACTIVE }) ⟨20, .STUDENT⟩ 9 50 [] [] =
      .ok (db', s, .WAITLIST))
    ∧ createSignupTx (some ⟨0, .PUBLISHED⟩)
        (some { id := 0, studentCapacity := 0, parentCapacity := 0, enabled := true,
                waitlistEnabled := false, status := .ACTIVE }) ⟨20, .STUDENT⟩ 9 50 [] [] =
      .error .FullWaitlistDisabled :=
  ⟨(createSignup_decision ⟨0, .PUBLISHED⟩ _ ⟨20, .STUDENT⟩ 9 50 []
      (Or.inl rfl) rfl (by decide) (by intro ex hx; cases hx) (by intro s hs; cases hs)
      (by decide)).1 (by decide),
   (createSignup_decision ⟨0, .PUBLISHED⟩ _ ⟨20, .STUDENT⟩ 9 50 []
      (Or.inl rfl) rfl (by decide) (by intro ex hx; cases hx) (by intro s hs; cases hs)
      (by decide)).2.1 (by decide) rfl,
   ((createSignup_decision ⟨0, .PUBLISHED⟩ _ ⟨20, .STUDENT⟩ 9 50 []
      (Or.inl rfl) rfl (by decide) (by intro ex hx; cases hx) (by intro s hs; cases hs)
      (by decide)).2.2 (by decide) rfl).1⟩

/-- Claim C10: when CreateSignup revives an existing CANCELLED signup of the
same participant and instance, the update writes only the new status: the
revived row keeps its id and original `signupDate` and its `cancelledAt` is
not cleared, and every other row is untouched. -/
theorem createSignup_revive_frame (ev : Event) (inst : EventInstance) (u : UserCtx)
    (newId : Nat) (now : Int) (db : List Signup) (ex : Signup)
    (hev : ev.status = .PUBLISHED ∨ u.role = .ADMIN)
    (hen : inst.enabled = true) (hcanc : inst.status ≠ .CANCELLED)
    (hf : db.find? (sameUserInstance u.id inst.id) = some ex)
    (hexc : ex.status = .CANCELLED)
    (hrole : ∀ s ∈ db, s.userId = u.id → s.role = u.role)
    (hN : (idsOf db).Nodup)
    (hok : reservedCount db inst.id u.role < roleCapacity inst u.role ∨
      inst.waitlistEnabled = true) :
    ∃ db' s st, createSignupTx (some ev) (some inst) u newId now [] db = .ok (db', s, st)
      ∧ s.id = ex.id ∧ s.signupDate = ex.signupDate ∧ s.cancelledAt = ex.cancelledAt
      ∧ s ∈ db'
      ∧ ∀ y ∈ db, y.id ≠ ex.id → y ∈ db' := by
  have hmem : ex ∈ db := List.mem_of_find?_eq_some hf
  have hpred := List.find?_some hf
  simp only [sameUserInstance, decide_eq_true_eq] at hpred
  have hrev : ∀ ex', some ex = some ex' → ex' ∈ db ∧ ex'.status = .CANCELLED ∧
      ex'.instanceId = inst.id ∧ ex'.role = u.role := by
    intro ex' hx
    cases hx
    exact ⟨hmem, hexc, hpred.2, hrole ex hmem hpred.1⟩
  have htx := createSignupTx_eq_core_revive ev inst u newId now [] db hev hen hcanc hf hexc
  by_cases hres : reservedCount db inst.id u.role < roleCapacity inst u.role
  · have hins := confirmedCount_inserted_confirmed inst u (some ex) newId now db hN hrev
    have hle : confirmedCount
        (insertedDb db (some ex) (insertedRow u inst (some ex) newId now .CONFIRMED) ++ [])
        inst.id u.role ≤ roleCapacity inst u.role := by
      rw [List.append_nil, hins]
      have := confirmed_le_reserved db inst.id u.role
      omega
    refine ⟨insertedDb db (some ex) (insertedRow u inst (some ex) newId now .CONFIRMED) ++ [],
      insertedRow u inst (some ex) newId now .CONFIRMED, .CONFIRMED, ?_, rfl, rfl, rfl, ?_, ?_⟩
    · rw [htx, createSignupCore_confirmed _ _ _ _ _ _ _ hres,
        backstopPhase_ok _ _ _ _ (Nat.not_lt.mpr hle)]
    · exact List.mem_append_left _
        (insertedRow_mem u inst (some ex) newId now .CONFIRMED db
          (fun ex' hx => by cases hx; exact hmem))
    · intro y hy hne
      exact List.mem_append_left _ (mem_updateById_of_ne db ex.id _ hy hne)
  · have hwl : inst.waitlistEnabled = true := hok.resolve_left hres
    refine ⟨insertedDb db (some ex) (insertedRow u inst (some ex) newId now .WAITLIST) ++ [],
      insertedRow u inst (some ex) newId now .WAITLIST, .WAITLIST, ?_, rfl, rfl, rfl, ?_, ?_⟩
    · rw [htx, createSignupCore_waitlist _ _ _ _ _ _ _ (Nat.not_lt.mp hres) hwl]
    · exact List.mem_append_left _
        (insertedRow_mem u inst (some ex) newId now .WAITLIST db
          (fun ex' hx => by cases hx; exact hmem))
    · intro y hy hne
      exact List.mem_append_left _ (mem_updateById_of_ne db ex.id _ hy hne)

/-- Witness for C10: reviving a CANCELLED row that carries
`signupDate = 2` and `cancelledAt = some 3` keeps both values. -/
theorem createSignup_revive_frame_witness :
    ∃ db' s st, createSignupTx (some ⟨0, .PUBLISHED⟩)
        (some { id := 0, studentCapacity := 1, parentCapacity := 0, enabled := true,
                waitlistEnabled := true, status := .ACTIVE }) ⟨20, .STUDENT⟩ 9 50 []
        [⟨7, 20, 0, .STUDENT, .CANCELLED, 2, none, some 3⟩] = .ok (db', s, st)
      ∧ s.id = (⟨7, 20, 0, .STUDENT, .CANCELLED, 2, none, some 3⟩ : Signup).id
      ∧ s.signupDate = (⟨7, 20, 0, .STUDENT, .CANCELLED, 2, none, some 3⟩ : Signup).signupDate
      ∧ s.cancelledAt = (⟨7, 20, 0, .STUDENT, .CANCELLED, 2, none, some 3⟩ : Signup).cancelledAt
      ∧ s ∈ db'
      ∧ ∀ y ∈ [(⟨7, 20, 0, .STUDENT, .CANCELLED, 2, none, some 3⟩ : Signup)],
          y.id ≠ (⟨7, 20, 0, .STUDENT, .CANCELLED, 2, none, some 3⟩ : Signup).id → y ∈ db' :=
  createSignup_revive_frame ⟨0, .PUBLISHED⟩ _ ⟨20, .STUDENT⟩ 9 50 _ _
    (Or.inl rfl) rfl (by decide) (by decide) rfl
    (by intro s hs hu; rcases List.mem_singleton.mp hs with rfl; rfl)
    (by decide) (Or.inl (by decide))

/-- Claim C1: for every committed CreateSignup transaction the CONFIRMED
count of the signer's role pool never exceeds the role's capacity
(provided the interleaved writers `race` had themselves respected the
bound), and the post-insert backstop behaves as specified: when the row
was inserted CONFIRMED and the re-count exceeds capacity, the row is
demoted to WAITLIST when the waitlist is enabled (lowering the count back
by one), and the transaction is aborted with the full/waitlist-disabled
Conflict otherwise. -/
theorem createSignup_capacity (ev? : Option Event) (inst : EventInstance) (u : UserCtx)
    (newId : Nat) (now : Int) (race db : List Signup)
    (hN : (idsOf (db ++ race)).Nodup)
    (hfresh : newId ∉ idsOf (db ++ race))
    (hrole : ∀ s ∈ db, s.userId = u.id → s.role = u.role)
    (hpre : confirmedCount (db ++ race) inst.id u.role ≤ roleCapacity inst u.role) :
    confirmedCount (commitDb (db ++ race) (createSignupTx ev? (some inst) u newId now race db))
        inst.id u.role ≤ roleCapacity inst u.role
    ∧ (∀ row db2, row ∈ db2 → (idsOf db2).Nodup →
        row.instanceId = inst.id → row.role = u.role → row.status = .CONFIRMED →
        confirmedCount db2 inst.id u.role > roleCapacity inst u.role →
        (inst.waitlistEnabled = true →
          backstopPhase inst u.role row .CONFIRMED db2 =
            .ok (updateById db2 row.id { row with status := .WAITLIST },
                 { row with status := .WAITLIST }, .WAITLIST)
          ∧ confirmedCount (updateById db2 row.id { row with status := .WAITLIST })
              inst.id u.role + 1 = confirmedCount db2 inst.id u.role)
        ∧ (inst.waitlistEnabled = false →
          backstopPhase inst u.role row .CONFIRMED db2 = .error .FullWaitlistDisabled)) := by
  constructor
  · cases ev? with
    | none => exact hpre
    | some ev =>
      simp only [createSignupTx]
      split
      · exact hpre
      · split
        · exact hpre
        · split
          · exact hpre
          · split
            next ex heq =>
              split
              · exact hpre
              next hnotc =>
                have hexc : ex.status = .CANCELLED := not_not.mp hnotc
                have hmem : ex ∈ db := List.mem_of_find?_eq_some heq
                have hpred := List.find?_some heq
                simp only [sameUserInstance, decide_eq_true_eq] at hpred
                exact createSignupCore_capacity inst u (some ex) newId now race db hN
                  (fun hx => by cases hx)
                  (fun ex' hx => by
                    cases hx
                    exact ⟨hmem, hexc, hpred.2, hrole ex hmem hpred.1⟩)
                  hpre
            next heq =>
              exact createSignupCore_capacity inst u none newId now race db hN
                (fun _ => hfresh) (fun ex hx => by cases hx) hpre
  · intro row db2 hmem hN2 hinst hrole2 hstat hov
    constructor
    · intro hwl
      constructor
      · unfold backstopPhase
        rw [if_pos rfl, if_pos hov, if_pos hwl]
      · have hupd := confirmedCount_updateById db2 inst.id u.role row.id
          { row with status := SignupStatus.WAITLIST } hN2 hmem rfl
        rw [if_pos ⟨hinst, hrole2, hstat⟩] at hupd
        rw [if_neg (fun hc => SignupStatus.noConfusion hc.2.2)] at hupd
        omega
    · intro hwl
      unfold backstopPhase
      rw [if_pos rfl, if_pos hov]
      rw [if_neg (by rw [hwl]; exact fun h => Bool.noConfusion h)]

/-- Witness for C1: capacity 1, an empty table, and one CONFIRMED row
committed by a concurrent writer between the read and the re-count; the
committed table still holds at most one CONFIRMED student, and the
backstop demotes the racing row at the overflowing two-row table. -/
theorem createSignup_capacity_witness :
    confirmedCount (commitDb ([] ++ [⟨4, 14, 0, .STUDENT, .CONFIRMED, 1, none, none⟩])
        (createSignupTx (some ⟨0, .PUBLISHED⟩)
          (some { id := 0, studentCapacity := 1, parentCapacity := 0, enabled := true,
                  waitlistEnabled := true, status := .ACTIVE }) ⟨20, .STUDENT⟩ 9 50
          [⟨4, 14, 0, .STUDENT, .CONFIRMED, 1, none, none⟩] []))
      0 .STUDENT ≤ 1
    ∧ (backstopPhase
          { id := 0, studentCapacity := 1, parentCapacity := 0, enabled := true,
            waitlistEnabled := true, status := .ACTIVE } .STUDENT
          ⟨9, 20, 0, .STUDENT, .CONFIRMED, 50, none, none⟩ .CONFIRMED
          [⟨9, 20, 0, .STUDENT, .CONFIRMED, 50, none, none⟩,
           ⟨4, 14, 0, .STUDENT, .CONFIRMED, 1, none, none⟩] =
        .ok (updateById
              [⟨9, 20, 0, .STUDENT, .CONFIRMED, 50, none, none⟩,
               ⟨4, 14, 0, .STUDENT, .CONFIRMED, 1, none, none⟩] 9
              { (⟨9, 20, 0, .STUDENT, .CONFIRMED, 50, none, none⟩ : Signup) with
                status := .WAITLIST },
             { (⟨9, 20, 0, .STUDENT, .CONFIRMED, 50, none, none⟩ : Signup) with
               status := .WAITLIST }, .WAITLIST)) :=
  ⟨(createSignup_capacity (some ⟨0, .PUBLISHED⟩) _ ⟨20, .STUDENT⟩ 9 50
      [⟨4, 14, 0, .STUDENT, .CONFIRMED, 1, none, none⟩] []
      (by decide) (by decide) (by intro s hs; cases hs) (by decide)).1,
   (((createSignup_capacity (some ⟨0, .PUBLISHED⟩) _ ⟨20, .STUDENT⟩ 9 50
      [⟨4, 14, 0, .STUDENT, .CONFIRMED, 1, none, none⟩] []
      (by decide) (by decide) (by intro s hs; cases hs) (by decide)).2
      ⟨9, 20, 0, .STUDENT, .CONFIRMED, 50, none, none⟩
      [⟨9, 20, 0, .STUDENT, .CONFIRMED, 50, none, none⟩,
       ⟨4, 14, 0, .STUDENT, .CONFIRMED, 1, none, none⟩]
      (by decide) (by decide) rfl rfl rfl (by decide)).1 rfl).1⟩

/-- Claim C6 (amended): each timed-out WAITLIST_PENDING row is processed
in its own transaction that deletes the row, emits an expiry notification
to its participant, and promotes the earliest-`signupDate` WAITLIST row
of the same role on the same instance (if any) to WAITLIST_PENDING with a
fresh `waitlistNotifiedAt`.  In a failure-free tick every timed-out row
is processed; the rows are processed sequentially, and a transaction
failure ends the tick (a failure on the first row leaves the table
untouched), so later rows wait for a subsequent tick. -/
theorem sweepTimeouts_spec (now : Int) (db : List Signup) :
    (∀ row dbx,
      (∀ s ∈ (processTimeout now row dbx).1, s.id ≠ row.id)
      ∧ (⟨row.userId, row.instanceId, .OfferExpired⟩ : Notif) ∈ (processTimeout now row dbx).2
      ∧ (waitlistFor (dbx.filter fun s => decide (s.id ≠ row.id)) row.instanceId row.role = [] →
          (processTimeout now row dbx).1 = dbx.filter fun s => decide (s.id ≠ row.id))
      ∧ (∀ nxt, (cascadePromote row.instanceId row.role now
            (dbx.filter fun s => decide (s.id ≠ row.id))).2.1 = some nxt →
          nxt ∈ waitlistFor (dbx.filter fun s => decide (s.id ≠ row.id)) row.instanceId row.role
          ∧ (∀ w ∈ waitlistFor (dbx.filter fun s => decide (s.id ≠ row.id))
              row.instanceId row.role, nxt.signupDate ≤ w.signupDate)
          ∧ (processTimeout now row dbx).1 =
              updateById (dbx.filter fun s => decide (s.id ≠ row.id)) nxt.id
                { nxt with status := .WAITLIST_PENDING, waitlistNotifiedAt := some now }))
    ∧ (∀ r ∈ findTimedOut now db,
        (∀ s ∈ (processWaitlistTimeouts now (fun _ => false) db).1, s.id ≠ r.id)
        ∧ (⟨r.userId, r.instanceId, .OfferExpired⟩ : Notif) ∈
            (processWaitlistTimeouts now (fun _ => false) db).2)
    ∧ (∀ fails : Nat → Bool, fails 0 = true →
        processWaitlistTimeouts now fails db = (db, [])) := by
  refine ⟨fun row dbx => ?_, fun r hr => sweepGo_no_fail now (findTimedOut now db) 0 db [] r hr,
    fun fails hf => ?_⟩
  · have hpf := processTimeout_fact now row dbx
    have hcs := cascadePromote_spec row.instanceId row.role now
      (dbx.filter fun s => decide (s.id ≠ row.id))
    refine ⟨fun s hs => (hpf.1 s hs).2, hpf.2, fun hwl => ?_, fun nxt hsome => ?_⟩
    · show (cascadePromote row.instanceId row.role now
          (dbx.filter fun s => decide (s.id ≠ row.id))).1 = _
      rw [hcs.1 hwl]
    · have hfull : cascadePromote row.instanceId row.role now
          (dbx.filter fun s => decide (s.id ≠ row.id)) =
          ((cascadePromote row.instanceId row.role now
            (dbx.filter fun s => decide (s.id ≠ row.id))).1,
           some nxt,
           (cascadePromote row.instanceId row.role now
            (dbx.filter fun s => decide (s.id ≠ row.id))).2.2) := by
        rw [← hsome]
      obtain ⟨hmem, hmin, hupd, -⟩ := hcs.2.1 _ nxt _ hfull
      exact ⟨hmem, hmin, hupd⟩
  · unfold processWaitlistTimeouts
    rcases findTimedOut now db with _ | ⟨r0, rs⟩
    · rfl
    · unfold sweepGo
      rw [if_pos hf]

/-- Counterexample to C6 as frozen: with two expired offers in the table
and the first row's transaction failing, the tick commits nothing — the
second expired row is still WAITLIST_PENDING and stale, so one row's
failure does block the processing of the others within that tick. -/
theorem sweepTimeouts_failure_blocks :
    processWaitlistTimeouts 50000000 (fun i => decide (i = 0))
      [⟨5, 15, 0, .STUDENT, .WAITLIST_PENDING, 8, some 0, none⟩,
       ⟨6, 16, 0, .STUDENT, .WAITLIST_PENDING, 9, some 0, none⟩] =
      ([⟨5, 15, 0, .STUDENT, .WAITLIST_PENDING, 8, some 0, none⟩,
        ⟨6, 16, 0, .STUDENT, .WAITLIST_PENDING, 9, some 0, none⟩], [])
    ∧ isTimedOut 50000000 (⟨6, 16, 0, .STUDENT, .WAITLIST_PENDING, 9, some 0, none⟩ : Signup)
        = true
    ∧ (⟨6, 16, 0, .STUDENT, .WAITLIST_PENDING, 9, some 0, none⟩ : Signup) ∈
        (processWaitlistTimeouts 50000000 (fun i => decide (i = 0))
          [⟨5, 15, 0, .STUDENT, .WAITLIST_PENDING, 8, some 0, none⟩,
           ⟨6, 16, 0, .STUDENT, .WAITLIST_PENDING, 9, some 0, none⟩]).1 := by
  decide

/-- Witness for C6: one expired offer and one waitlist row; the
failure-free sweep deletes the expired row and emits its notification,
and a tick whose first transaction fails leaves the table unchanged. -/
theorem sweepTimeouts_spec_witness :
    (∀ s ∈ (processWaitlistTimeouts 50000000 (fun _ => false)
        [⟨5, 15, 0, .STUDENT, .WAITLIST_PENDING, 8, some 0, none⟩,
         ⟨1, 11, 0, .STUDENT, .WAITLIST, 10, none, none⟩]).1,
      s.id ≠ (⟨5, 15, 0, .STUDENT, .WAITLIST_PENDING, 8, some 0, none⟩ : Signup).id)
    ∧ (⟨15, 0, .OfferExpired⟩ : Notif) ∈
        (processWaitlistTimeouts 50000000 (fun _ => false)
          [⟨5, 15, 0, .STUDENT, .WAITLIST_PENDING, 8, some 0, none⟩,
           ⟨1, 11, 0, .STUDENT, .WAITLIST, 10, none, none⟩]).2
    ∧ processWaitlistTimeouts 50000000 (fun _ => true)
        [⟨5, 15, 0, .STUDENT, .WAITLIST_PENDING, 8, some 0, none⟩,
         ⟨1, 11, 0, .STUDENT, .WAITLIST, 10, none, none⟩] =
        ([⟨5, 15, 0, .STUDENT, .WAITLIST_PENDING, 8, some 0, none⟩,
          ⟨1, 11, 0, .STUDENT, .WAITLIST, 10, none, none⟩], []) :=
  ⟨((sweepTimeouts_spec 50000000
      [⟨5, 15, 0, .STUDENT, .WAITLIST_PENDING, 8, some 0, none⟩,
       ⟨1, 11, 0, .STUDENT, .WAITLIST, 10, none, none⟩]).2.1
      ⟨5, 15, 0, .STUDENT, .WAITLIST_PENDING, 8, some 0, none⟩ (by decide)).1,
   ((sweepTimeouts_spec 50000000
      [⟨5, 15, 0, .STUDENT, .WAITLIST_PENDING, 8, some 0, none⟩,
       ⟨1, 11, 0, .STUDENT, .WAITLIST, 10, none, none⟩]).2.1
      ⟨5, 15, 0, .STUDENT, .WAITLIST_PENDING, 8, some 0, none⟩ (by decide)).2,
   (sweepTimeouts_spec 50000000
      [⟨5, 15, 0, .STUDENT, .WAITLIST_PENDING, 8, some 0, none⟩,
       ⟨1, 11, 0, .STUDENT, .WAITLIST, 10, none, none⟩]).2.2
      (fun _ => true) rfl⟩

/-- Claim C7 (amended): when an ADMIN sets an instance's status to
CANCELLED or COMPLETED through the status route, every WAITLIST_PENDING
signup of that instance is demoted back to WAITLIST with
`waitlistNotifiedAt` cleared, no WAITLIST_PENDING signup of the instance
remains, every other signup is untouched, and the instance carries the
new status.  The sweeper's auto-complete marks due instances COMPLETED
but modifies no signup, so a WAITLIST_PENDING signup may remain on an
instance it completed. -/
theorem sessionClose_demotes_pending (inst : EventInstance) (newStatus : InstanceStatus)
    (now : Int) (actorId : Nat) (db : List Signup) (insts : List EventInstance)
    (h : newStatus = .CANCELLED ∨ newStatus = .COMPLETED) :
    (∀ s ∈ (updateSessionStatus inst newStatus now actorId db).2.1,
        s.instanceId = inst.id → s.status ≠ .WAITLIST_PENDING)
    ∧ (∀ s ∈ db, s.instanceId = inst.id → s.status = .WAITLIST_PENDING →
        { s with status := .WAITLIST, waitlistNotifiedAt := none } ∈
          (updateSessionStatus inst newStatus now actorId db).2.1)
    ∧ (∀ s ∈ db, ¬ (s.instanceId = inst.id ∧ s.status = .WAITLIST_PENDING) →
        s ∈ (updateSessionStatus inst newStatus now actorId db).2.1)
    ∧ (updateSessionStatus inst newStatus now actorId db).1.status = newStatus
    ∧ (∀ i ∈ insts, i.enabled = true → i.status = .ACTIVE → startDatePassed now i = true →
        { i with enabled := false, status := .COMPLETED } ∈
          (processSessionDisabling now insts db).1)
    ∧ (processSessionDisabling now insts db).2 = db := by
  simp only [updateSessionStatus]
  rw [if_pos h]
  refine ⟨?_, ?_, ?_, ?_, ?_, rfl⟩
  · intro s hs hsin
    obtain ⟨t, ht, hts⟩ := List.mem_map.mp hs
    by_cases hc : t.instanceId = inst.id ∧ t.status = .WAITLIST_PENDING
    · rw [if_pos hc] at hts
      rw [← hts]
      exact fun hcon => SignupStatus.noConfusion hcon
    · rw [if_neg hc] at hts
      rw [← hts] at hsin ⊢
      exact fun hpend => hc ⟨hsin, hpend⟩
  · intro s hs hsin hpend
    have heq : (fun s => if s.instanceId = inst.id ∧ s.status = .WAITLIST_PENDING then
        { s with status := SignupStatus.WAITLIST, waitlistNotifiedAt := none } else s) s =
        { s with status := SignupStatus.WAITLIST, waitlistNotifiedAt := none } := by
      show (if s.instanceId = inst.id ∧ s.status = SignupStatus.WAITLIST_PENDING then
        { s with status := SignupStatus.WAITLIST, waitlistNotifiedAt := none } else s) = _
      rw [if_pos ⟨hsin, hpend⟩]
    rw [← heq]
    exact List.mem_map_of_mem _ hs
  · intro s hs hns
    have heq : (fun s => if s.instanceId = inst.id ∧ s.status = .WAITLIST_PENDING then
        { s with status := SignupStatus.WAITLIST, waitlistNotifiedAt := none } else s) s = s := by
      show (if s.instanceId = inst.id ∧ s.status = SignupStatus.WAITLIST_PENDING then
        { s with status := SignupStatus.WAITLIST, waitlistNotifiedAt := none } else s) = _
      rw [if_neg hns]
    rw [← heq]
    exact List.mem_map_of_mem _ hs
  · by_cases hc : newStatus = .CANCELLED
    · rw [if_pos hc]
    · rw [if_neg hc]
  · intro i hi hen hact hdue
    have heq : (fun i => if i.enabled = true ∧ i.status = .ACTIVE ∧
          startDatePassed now i = true then
        { i with enabled := false, status := InstanceStatus.COMPLETED } else i) i =
        { i with enabled := false, status := InstanceStatus.COMPLETED } := by
      show (if i.enabled = true ∧ i.status = InstanceStatus.ACTIVE ∧
          startDatePassed now i = true then
        { i with enabled := false, status := InstanceStatus.COMPLETED } else i) = _
      rw [if_pos ⟨hen, hact, hdue⟩]
    show _ ∈ insts.map _
    rw [← heq]
    exact List.mem_map_of_mem _ hi

/-- Counterexample to C7 as frozen: the sweeper's auto-complete marks a
due instance COMPLETED but leaves its WAITLIST_PENDING signup untouched,
so a WAITLIST_PENDING signup does remain on a COMPLETED instance. -/
theorem autoComplete_leaves_pending :
    processSessionDisabling 100
      [{ id := 0, studentCapacity := 1, parentCapacity := 0, enabled := true,
         waitlistEnabled := true, status := .ACTIVE, startDate := some 50 }]
      [⟨5, 15, 0, .STUDENT, .WAITLIST_PENDING, 8, some 0, none⟩] =
      ([{ id := 0, studentCapacity := 1, parentCapacity := 0, enabled := false,
          waitlistEnabled := true, status := .COMPLETED, startDate := some 50 }],
       [⟨5, 15, 0, .STUDENT, .WAITLIST_PENDING, 8, some 0, none⟩])
    ∧ (⟨5, 15, 0, .STUDENT, .WAITLIST_PENDING, 8, some 0, none⟩ : Signup).status =
        .WAITLIST_PENDING
    ∧ (⟨5, 15, 0, .STUDENT, .WAITLIST_PENDING, 8, some 0, none⟩ : Signup).instanceId = 0 := by
  decide

/-- Witness for C7: completing an instance with one pending and one
confirmed signup demotes the pending one and keeps the confirmed one. -/
theorem sessionClose_demotes_pending_witness :
    ({ (⟨5, 15, 0, .STUDENT, .WAITLIST_PENDING, 8, some 0, none⟩ : Signup) with
        status := .WAITLIST, waitlistNotifiedAt := none } ∈
      (updateSessionStatus
        { id := 0, studentCapacity := 1, parentCapacity := 0, enabled := true,
          waitlistEnabled := true, status := .ACTIVE } .COMPLETED 99 42
        [⟨5, 15, 0, .STUDENT, .WAITLIST_PENDING, 8, some 0, none⟩,
         ⟨4, 14, 0, .STUDENT, .CONFIRMED, 1, none, none⟩]).2.1)
    ∧ ((⟨4, 14, 0, .STUDENT, .CONFIRMED, 1, none, none⟩ : Signup) ∈
      (updateSessionStatus
        { id := 0, studentCapacity := 1, parentCapacity := 0, enabled := true,
          waitlistEnabled := true, status := .ACTIVE } .COMPLETED 99 42
        [⟨5, 15, 0, .STUDENT, .WAITLIST_PENDING, 8, some 0, none⟩,
         ⟨4, 14, 0, .STUDENT, .CONFIRMED, 1, none, none⟩]).2.1) :=
  ⟨(sessionClose_demotes_pending _ .COMPLETED 99 42 _ [] (Or.inr rfl)).2.1
     ⟨5, 15, 0, .STUDENT, .WAITLIST_PENDING, 8, some 0, none⟩
     (List.mem_cons_self _ _) rfl rfl,
   (sessionClose_demotes_pending _ .COMPLETED 99 42 _ [] (Or.inr rfl)).2.2.1
     ⟨4, 14, 0, .STUDENT, .CONFIRMED, 1, none, none⟩
     (List.mem_cons_of_mem _ (List.mem_cons_self _ _)) (by decide)⟩

/-- Claim C8 (amended): DeleteSignup invokes the waitlist promoter for 1
slot in the removed signup's role if and only if the deleted signup was
CONFIRMED (otherwise it only deletes the row); the status-update cancel
route (`PUT /:id` with status CANCELLED) invokes the promoter for 1 slot
whenever the requested status is CANCELLED, regardless of the signup's
previous status. -/
theorem cancelDelete_promotion (sid : Nat) (now : Int) (db : List Signup) :
    ∀ ex, db.find? (fun s => decide (s.id = sid)) = some ex →
      (ex.status ≠ .CONFIRMED →
        deleteSignupRoute sid now db = .ok (db.filter fun s => decide (s.id ≠ sid), []))
      ∧ (ex.status = .CONFIRMED →
        deleteSignupRoute sid now db =
          .ok ((promoteWaitlistedUsers (db.filter fun s => decide (s.id ≠ sid))
              ex.instanceId ex.role 1 now).1,
            (promoteWaitlistedUsers (db.filter fun s => decide (s.id ≠ sid))
              ex.instanceId ex.role 1 now).2.1))
      ∧ updateSignupStatus sid .CANCELLED now db =
          .ok ((promoteWaitlistedUsers
              (updateById db sid { ex with status := .CANCELLED, cancelledAt := some now })
              ex.instanceId ex.role 1 now).1,
            (promoteWaitlistedUsers
              (updateById db sid { ex with status := .CANCELLED, cancelledAt := some now })
              ex.instanceId ex.role 1 now).2.1) := by
  intro ex hf
  refine ⟨fun hnc => ?_, fun hc => ?_, ?_⟩
  · simp only [deleteSignupRoute, hf]
    rw [if_neg hnc]
  · simp only [deleteSignupRoute, hf]
    rw [if_pos hc]
  · simp [updateSignupStatus, hf]

/-- Counterexample to C8 as frozen: cancelling a WAITLIST signup through
the status-update route still promotes the next waitlisted signup to
WAITLIST_PENDING, although the cancelled signup was not CONFIRMED. -/
theorem cancel_waitlist_promotes :
    updateSignupStatus 1 .CANCELLED 99
      [⟨1, 11, 0, .STUDENT, .WAITLIST, 10, none, none⟩,
       ⟨2, 12, 0, .STUDENT, .WAITLIST, 5, none, none⟩] =
      .ok ([⟨1, 11, 0, .STUDENT, .CANCELLED, 10, none, some 99⟩,
            ⟨2, 12, 0, .STUDENT, .WAITLIST_PENDING, 5, some 99, none⟩],
           [⟨2, 12, 0, .STUDENT, .WAITLIST, 5, none, none⟩])
    ∧ (⟨1, 11, 0, .STUDENT, .WAITLIST, 10, none, none⟩ : Signup).status ≠ .CONFIRMED :=
  ⟨rfl, by decide⟩

/-- Witness for C8: deleting a WAITLIST signup promotes nobody; deleting
a CONFIRMED one invokes the promoter; the cancel route always invokes
it. -/
theorem cancelDelete_promotion_witness :
    deleteSignupRoute 1 99
        [⟨1, 11, 0, .STUDENT, .WAITLIST, 10, none, none⟩,
         ⟨2, 12, 0, .STUDENT, .WAITLIST, 5, none, none⟩] =
      .ok ([⟨1, 11, 0, .STUDENT, .WAITLIST, 10, none, none⟩,
            ⟨2, 12, 0, .STUDENT, .WAITLIST, 5, none, none⟩].filter
              fun s => decide (s.id ≠ 1), [])
    ∧ deleteSignupRoute 4 99
        [⟨4, 14, 0, .STUDENT, .CONFIRMED, 1, none, none⟩,
         ⟨2, 12, 0, .STUDENT, .WAITLIST, 5, none, none⟩] =
      .ok ((promoteWaitlistedUsers
            ([⟨4, 14, 0, .STUDENT, .CONFIRMED, 1, none, none⟩,
              ⟨2, 12, 0, .STUDENT, .WAITLIST, 5, none, none⟩].filter
                fun s => decide (s.id ≠ 4)) 0 .STUDENT 1 99).1,
           (promoteWaitlistedUsers
            ([⟨4, 14, 0, .STUDENT, .CONFIRMED, 1, none, none⟩,
              ⟨2, 12, 0, .STUDENT, .WAITLIST, 5, none, none⟩].filter
                fun s => decide (s.id ≠ 4)) 0 .STUDENT 1 99).2.1) :=
  ⟨((cancelDelete_promotion 1 99 _) ⟨1, 11, 0, .STUDENT, .WAITLIST, 10, none, none⟩
      (by decide)).1 (by decide),
   ((cancelDelete_promotion 4 99 _) ⟨4, 14, 0, .STUDENT, .CONFIRMED, 1, none, none⟩
      (by decide)).2.1 rfl⟩

/-- Claim C9 (amended): on the instance-update route, a capacity request
for a role that is non-zero (JS-truthy), strictly below the instance's
current capacity, and strictly below the CONFIRMED + WAITLIST_PENDING
count of that role is rejected with the capacity error before any
mutation; a requested capacity of 0 is falsy and bypasses this guard. -/
theorem instanceUpdate_capacity_floor (inst : EventInstance) (req : InstanceUpdateReq)
    (now : Int) (db : List Signup) :
    (∀ c, req.studentCapacity = some c → c ≠ 0 → c < inst.studentCapacity →
      c < reservedCount db inst.id .STUDENT →
      updateEventInstance inst req now db = .error .CapacityTooLow)
    ∧ (∀ c, req.parentCapacity = some c → c ≠ 0 → c < inst.parentCapacity →
      c < reservedCount db inst.id .PARENT →
      updateEventInstance inst req now db = .error .CapacityTooLow) := by
  constructor
  · intro c hc h0 hlt hres
    unfold updateEventInstance
    split
    · rfl
    next h1 =>
      exact absurd ⟨by rw [hc]; simp [optTruthyNat, h0],
        by rw [hc]; exact hlt, by rw [hc]; exact hres⟩ h1
  · intro c hc h0 hlt hres
    unfold updateEventInstance
    split
    · rfl
    split
    · rfl
    next h2 =>
      exact absurd ⟨by rw [hc]; simp [optTruthyNat, h0],
        by rw [hc]; exact hlt, by rw [hc]; exact hres⟩ h2

/-- Counterexample to C9 as frozen: requesting capacity 0 (below the
reserved count of 2) is not rejected — the update succeeds and mutates
the instance to capacity 0. -/
theorem capacityZero_bypasses_floor :
    updateEventInstance
        { id := 0, studentCapacity := 2, parentCapacity := 0, enabled := true,
          waitlistEnabled := true, status := .ACTIVE }
        { studentCapacity := some 0 } 99
        [⟨4, 14, 0, .STUDENT, .CONFIRMED, 1, none, none⟩,
         ⟨5, 15, 0, .STUDENT, .WAITLIST_PENDING, 8, some 0, none⟩] =
      .ok ({ id := 0, studentCapacity := 0, parentCapacity := 0, enabled := true,
             waitlistEnabled := true, status := .ACTIVE },
           [⟨4, 14, 0, .STUDENT, .CONFIRMED, 1, none, none⟩,
            ⟨5, 15, 0, .STUDENT, .WAITLIST_PENDING, 8, some 0, none⟩])
    ∧ (0 : Nat) < reservedCount
        [⟨4, 14, 0, .STUDENT, .CONFIRMED, 1, none, none⟩,
         ⟨5, 15, 0, .STUDENT, .WAITLIST_PENDING, 8, some 0, none⟩] 0 .STUDENT :=
  ⟨rfl, by decide⟩

/-- Witness for C9: reducing student capacity from 2 to 1 with 2 reserved
students is rejected, and likewise for the parent pool. -/
theorem instanceUpdate_capacity_floor_witness :
    updateEventInstance
        { id := 0, studentCapacity := 2, parentCapacity := 0, enabled := true,
          waitlistEnabled := true, status := .ACTIVE }
        { studentCapacity := some 1 } 99
        [⟨4, 14, 0, .STUDENT, .CONFIRMED, 1, none, none⟩,
         ⟨5, 15, 0, .STUDENT, .WAITLIST_PENDING, 8, some 0, none⟩] =
      .error .CapacityTooLow
    ∧ updateEventInstance
        { id := 0, studentCapacity := 0, parentCapacity := 2, enabled := true,
          waitlistEnabled := true, status := .ACTIVE }
        { parentCapacity := some 1 } 99
        [⟨4, 14, 0, .PARENT, .CONFIRMED, 1, none, none⟩,
         ⟨5, 15, 0, .PARENT, .WAITLIST_PENDING, 8, some 0, none⟩] =
      .error .CapacityTooLow :=
  ⟨(instanceUpdate_capacity_floor _ _ 99 _).1 1 rfl (by decide) (by decide) (by decide),
   (instanceUpdate_capacity_floor _ _ 99 _).2 1 rfl (by decide) (by decide) (by decide)⟩

end MySewa
